import Mathlib

/-! # Zekitales voice assistant (`voice-agent.js`): model and verified properties

A shallow embedding of the class `AIVoiceAgent`.  Every handler of the class is a
function on an explicit `World` (the agent's fields, the part of the page the
handlers write to, and the ordered list of calls made to the browser engines).
What the browser or the network decides (the recognition event, the settled
`fetch`, how an utterance finishes) is an argument of the handler that consumes it.

Strings are Lean strings (sequences of Unicode scalar values).  The keywords and
replies of the widget are ASCII or BMP text, for which substring search on
scalar values and on UTF-16 code units coincide.
-/

namespace VoiceAgent

/-! ## Strings: `toLowerCase`, `includes`, `trim` -/

/-- Lower-case form of one character, as `String.prototype.toLowerCase` produces it
for every character whose lower-case form contains an ASCII character: the letters
`A`..`Z`, KELVIN SIGN (U+212A, to `k`) and LATIN CAPITAL LETTER I WITH DOT ABOVE
(U+0130, to `i` followed by U+0307).  Any other character is kept: its lower-case
form contains no ASCII character, so it can neither create nor destroy an
occurrence of an ASCII keyword. -/
def lowerChar (c : Char) : List Char :=
  if 65 ≤ c.toNat ∧ c.toNat ≤ 90 then [Char.ofNat (c.toNat + 32)]
  else if c.toNat = 0x212A then [Char.ofNat 0x6B]
  else if c.toNat = 0x0130 then [Char.ofNat 0x69, Char.ofNat 0x0307]
  else [c]

/-- Model of `s.toLowerCase()` as far as ASCII is concerned: the characters whose
lower-case form contains an ASCII character are lower-cased as JavaScript does, the
others are kept (see `lowerChar`), so an ASCII keyword occurs in this form exactly
when it occurs in the form JavaScript computes (`includes_lower_form`). -/
def toLowerCase (s : String) : String := ⟨s.data.flatMap lowerChar⟩

/-- Substring search on character lists: does `kw` occur in `s` as a contiguous run? -/
def includesChars : List Char → List Char → Bool
  | [], kw => kw.isEmpty
  | c :: rest, kw => kw.isPrefixOf (c :: rest) || includesChars rest kw

/-- Model of `s.includes(kw)`. -/
def includes (s kw : String) : Bool := includesChars s.data kw.data

/-- The characters `String.prototype.trim` strips: ECMAScript WhiteSpace
(TAB, VT, FF, U+FEFF and the space separators) and LineTerminator
(LF, CR, U+2028, U+2029). -/
def isWhiteSpace (c : Char) : Bool :=
  let n := c.toNat
  n == 0x09 || n == 0x0A || n == 0x0B || n == 0x0C || n == 0x0D || n == 0x20 ||
  n == 0xA0 || n == 0x1680 || (0x2000 ≤ n && n ≤ 0x200A) || n == 0x2028 ||
  n == 0x2029 || n == 0x202F || n == 0x205F || n == 0x3000 || n == 0xFEFF

/-- Model of `s.trim()`: white space removed from both ends. -/
def trim (s : String) : String :=
  ⟨((s.data.dropWhile isWhiteSpace).reverse.dropWhile isWhiteSpace).reverse⟩

/-- Truthiness of a string in a JavaScript condition: every string but the empty one. -/
def strTruthy (s : String) : Bool := !s.data.isEmpty

/-- Truthiness of a field that holds `null` or a string (`this.apiKey`). -/
def truthy : Option String → Bool
  | none => false
  | some s => strTruthy s

/-! ## Data model -/

/-- The `role` of a conversation turn or request message. -/
inductive Role where
  | system
  | user
  | assistant
  deriving DecidableEq, Repr

/-- One entry of `conversationHistory` (and of the request's `messages`). -/
structure Turn where
  role : Role
  content : String
  deriving DecidableEq, Repr

/-- A speech-synthesis voice: name and language tag. -/
structure Voice where
  name : String
  lang : String
  deriving DecidableEq, Repr

/-- The object `this.config`.  Numeric settings are only stored and copied by the
handlers modelled here; they are carried as rationals. -/
structure Config where
  language : String
  voiceRate : ℚ
  voicePitch : ℚ
  voiceVolume : ℚ
  autoListen : Bool
  maxSpeechLength : ℚ
  silenceTimeout : ℚ
  aiModel : String
  systemPrompt : String
  deriving DecidableEq

/-- The fields of an `AIVoiceAgent` instance.  `recognition` and `synthesis` record
whether the corresponding engine object is present (non-null). -/
structure Agent where
  apiKey : Option String
  isListening : Bool
  isProcessing : Bool
  isSpeaking : Bool
  recognition : Bool
  synthesis : Bool
  voices : List Voice
  currentVoice : Option Voice
  config : Config
  conversationHistory : List Turn
  deriving DecidableEq

/-- The argument of `updateUI`. -/
inductive UIState where
  | idle
  | listening
  | processing
  | speaking
  deriving DecidableEq, Repr

/-- The class token `updateUI` adds for a state (`classList.add(state)`). -/
def UIState.className : UIState → String
  | .idle => "idle"
  | .listening => "listening"
  | .processing => "processing"
  | .speaking => "speaking"

/-- Content of the start button, which the handlers rewrite (icon and caption). -/
inductive StartBtnLabel where
  | startListening
  | stopListening
  | processing
  | speaking
  deriving DecidableEq, Repr

/-- The elements of the page the handlers write to.  They are the elements
`createVoiceInterface` creates, so every lookup of the handlers finds its element. -/
structure Dom where
  floatingBtnClass : List String
  indicatorClass : List String
  startBtnLabel : StartBtnLabel
  startBtnDisabled : Bool
  statusText : String
  userTranscript : String
  aiResponse : String
  deriving DecidableEq

/-- The `SpeechSynthesisUtterance` handed to `synthesis.speak`. -/
structure Utterance where
  text : String
  voice : Option Voice
  rate : ℚ
  pitch : ℚ
  volume : ℚ
  deriving DecidableEq

/-- The body and credential of the POST request of `getAIResponse`. -/
structure ChatRequest where
  authorization : String
  model : String
  messages : List Turn
  maxTokens : Nat
  temperature : ℚ
  deriving DecidableEq

/-- A call the agent makes to an engine outside it. -/
inductive Call where
  | recognitionStart
  | recognitionStop
  | synthesisCancel
  | synthesisSpeak (u : Utterance)
  | fetch (req : ChatRequest)
  | notification (message : String)
  deriving DecidableEq

/-- Agent, page and the calls made so far (oldest first). -/
structure World where
  agent : Agent
  dom : Dom
  calls : List Call
  deriving DecidableEq

/-- Record a call. -/
def World.call (w : World) (c : Call) : World :=
  { w with calls := w.calls ++ [c] }

/-! ## The remote endpoint's answer -/

/-- A parsed JSON value (what `response.json()` resolves to). -/
inductive Json where
  | null
  | bool (b : Bool)
  | num (lexeme : String)
  | str (s : String)
  | arr (items : List Json)
  | obj (members : List (String × Json))

/-- An HTTP response: `ok`, `status`, and the parsed body (`none` when the body is
not JSON, in which case `response.json()` rejects). -/
structure HttpResponse where
  ok : Bool
  status : Nat
  body : Option Json

/-- How the `fetch` promise settles. -/
inductive FetchOutcome where
  | rejected
  | response (r : HttpResponse)

/-- What a handler can throw. -/
inductive JsError where
  | apiKeyNotProvided
  | apiRequestFailed (status : Nat)
  | network
  | badJson
  | typeError
  deriving DecidableEq, Repr

/-- Own-property lookup in a parsed object. -/
def lookupMember (name : String) : List (String × Json) → Option Json
  | [] => none
  | (k, v) :: rest => if k = name then some v else lookupMember name rest

/-- Property read `v.name` for a name that no prototype defines (`choices`,
`message`, `content`).  `v = none` is `undefined`; the result `none` is `undefined`.
Reading a property of `undefined` or `null` throws a `TypeError`. -/
def getProp (v : Option Json) (name : String) : Except JsError (Option Json) :=
  match v with
  | none => .error .typeError
  | some .null => .error .typeError
  | some (.obj members) => .ok (lookupMember name members)
  | some _ => .ok none

/-- Element read `v[0]`. -/
def getIndex0 (v : Option Json) : Except JsError (Option Json) :=
  match v with
  | none => .error .typeError
  | some .null => .error .typeError
  | some (.arr items) => .ok items.head?
  | some (.str s) => .ok (s.data.head?.map (fun c => Json.str (String.singleton c)))
  | some (.obj members) => .ok (lookupMember "0" members)
  | some _ => .ok none

/-- Method call `v.trim()`: only a string has a callable `trim`. -/
def callTrim (v : Option Json) : Except JsError String :=
  match v with
  | some (.str s) => .ok (trim s)
  | _ => .error .typeError

/-- The value `data.choices[0].message.content`. -/
def choiceContent (data : Json) : Except JsError (Option Json) := do
  let choices ← getProp (some data) "choices"
  let first ← getIndex0 choices
  let message ← getProp first "message"
  getProp message "content"

/-- The expression `data.choices[0].message.content.trim()`. -/
def replyContent (data : Json) : Except JsError String := do
  let content ← choiceContent data
  callTrim content

/-! ## Conversation history and `getAIResponse` -/

/-- Model of `xs.slice(-n)`: the last `n` elements (all of them when there are fewer). -/
def sliceLast (n : Nat) (xs : List Turn) : List Turn := xs.drop (xs.length - n)

/-- The history update of `getAIResponse`: push the user and assistant turns, then
keep the last 10 entries when there are more than 10. -/
def updateHistory (history : List Turn) (userInput aiResponse : String) : List Turn :=
  let pushed := history ++ [⟨.user, userInput⟩, ⟨.assistant, aiResponse⟩]
  if pushed.length > 10 then sliceLast 10 pushed else pushed

/-- The `messages` array and request of `getAIResponse`. -/
def chatRequest (a : Agent) (userInput : String) : ChatRequest :=
  { authorization := "Bearer " ++ a.apiKey.getD ""
    model := a.config.aiModel
    messages := [⟨.system, a.config.systemPrompt⟩] ++ a.conversationHistory ++ [⟨.user, userInput⟩]
    maxTokens := 150
    temperature := 7 / 10 }

/-- The part of `getAIResponse` that runs once the `fetch` has settled (from the
`response.ok` test to the `return`).  The result is the world it leaves behind and
either the returned reply or the error thrown. -/
def getAIResponseSettle (w : World) (userInput : String) (outcome : FetchOutcome) :
    World × Except JsError String :=
  match outcome with
  | .rejected => (w, .error .network)
  | .response r =>
    if !r.ok then (w, .error (.apiRequestFailed r.status))
    else
      match r.body with
      | none => (w, .error .badJson)
      | some data =>
        match replyContent data with
        | .error e => (w, .error e)
        | .ok aiResponse =>
          ({ w with agent := { w.agent with
              conversationHistory :=
                updateHistory w.agent.conversationHistory userInput aiResponse } },
            .ok aiResponse)

/-- Model of `getAIResponse(userInput)`, given how the `fetch` settles: the
credential test, the request, then `getAIResponseSettle`. -/
def getAIResponse (w : World) (userInput : String) (outcome : FetchOutcome) :
    World × Except JsError String :=
  if !truthy w.agent.apiKey then (w, .error .apiKeyNotProvided)
  else getAIResponseSettle (w.call (.fetch (chatRequest w.agent userInput))) userInput outcome

/-- Worlds after each call of a sequence of `getAIResponse` calls (in call order). -/
def afterCalls (w : World) : List (String × FetchOutcome) → List World
  | [] => []
  | (u, o) :: rest => (getAIResponse w u o).1 :: afterCalls (getAIResponse w u o).1 rest

/-- Run a sequence of `getAIResponse` calls that all succeed: the replies returned
(in call order) and the final world; `none` as soon as one call throws. -/
def getAIResponseAll (w : World) : List (String × FetchOutcome) → Option (List String × World)
  | [] => some ([], w)
  | (u, o) :: rest =>
    match getAIResponse w u o with
    | (w1, .ok r) => (getAIResponseAll w1 rest).map (fun p => (r :: p.1, p.2))
    | (_, .error _) => none

/-- The user and assistant turns of a list of exchanges, in order. -/
def turnsOf : List String → List String → List Turn
  | u :: us, r :: rs => ⟨.user, u⟩ :: ⟨.assistant, r⟩ :: turnsOf us rs
  | _, _ => []

/-! ## The canned replies: `getPredefinedResponse` -/

def aboutReply : String := "Zekitales is a digital agency specializing in web development, design, and digital solutions. We create custom websites, mobile apps, and provide full-stack development services."
def servicesReply : String := "We offer web development, UI/UX design, WordPress development, PHP and SQL development, ecommerce solutions, and custom digital products."
def technologyReply : String := "We work with HTML, CSS, JavaScript, React, Next.js, Node.js, PHP, SQL, MongoDB, WordPress, and other modern technologies."
def contactReply : String := "You can contact Zekitales at zekitales@gmail.com or call +92 321 3995991. We're a remote-first team serving clients globally."
def locationReply : String := "Zekitales is a remote digital agency, collaborating with clients around the world."
def priceReply : String := "Our pricing depends on your project requirements. We provide custom quotes with transparent and competitive rates."
def timeReply : String := "Simple websites usually take 1–2 weeks, while larger apps may take 4–8 weeks. Timelines depend on project complexity."
def processReply : String := "Our process includes Discovery, Planning, Design, Development, Testing, and Launch to ensure quality and transparency."
def portfolioReply : String := "You can check our portfolio to see examples of the websites and apps we’ve built for clients."
def testimonialsReply : String := "Our clients love working with us! We have testimonials highlighting our quality, transparency, and reliability."
def teamReply : String := "Zekitales is powered by a team of experienced developers, designers, and strategists."
def careersReply : String := "We’re always looking for talent. You can check our careers section or email us to join Zekitales."
def blogReply : String := "We publish blogs and insights about web development, design, and digital trends."
def faqReply : String := "Here are answers to frequently asked questions about Zekitales, our services, and our process."
def greetingReply : String := "Hello! Welcome to Zekitales. I'm your AI assistant. How can I help you today?"
def helpReply : String := "I'm here to help! Ask me about our services, pricing, technologies, or how to start your project."
def goodbyeReply : String := "Goodbye! It was nice talking to you. Reach out to Zekitales anytime."
def defaultReply : String := "Thank you for your question! For more details about our services, visit our website or contact us directly. We'd be happy to discuss your project."

/-- Model of `getPredefinedResponse(userInput)`: the chain of `if` statements of the
source, each returning its reply, on the lower-cased input. -/
def getPredefinedResponse (userInput : String) : String :=
  let input := toLowerCase userInput
  if includes input "zekitales" || includes input "about" || includes input "who are you" then
    aboutReply
  else if includes input "service" || includes input "what do you do" || includes input "offer" then
    servicesReply
  else if includes input "technology" || includes input "tech stack" || includes input "tools" then
    technologyReply
  else if includes input "contact" || includes input "reach" || includes input "email"
      || includes input "call" then
    contactReply
  else if includes input "location" || includes input "where" || includes input "address" then
    locationReply
  else if includes input "price" || includes input "cost" || includes input "quote"
      || includes input "budget" then
    priceReply
  else if includes input "time" || includes input "how long" || includes input "duration"
      || includes input "deadline" then
    timeReply
  else if includes input "process" || includes input "workflow" || includes input "steps" then
    processReply
  else if includes input "portfolio" || includes input "projects" || includes input "work" then
    portfolioReply
  else if includes input "testimonial" || includes input "clients" || includes input "reviews" then
    testimonialsReply
  else if includes input "team" || includes input "members" || includes input "staff" then
    teamReply
  else if includes input "career" || includes input "jobs" || includes input "hiring" then
    careersReply
  else if includes input "blog" || includes input "articles" || includes input "news" then
    blogReply
  else if includes input "faq" || includes input "questions" || includes input "common" then
    faqReply
  else if includes input "hello" || includes input "hi" || includes input "hey"
      || includes input "salam" then
    greetingReply
  else if includes input "help" || includes input "support" || includes input "assist" then
    helpReply
  else if includes input "bye" || includes input "goodbye" || includes input "see you" then
    goodbyeReply
  else
    defaultReply

/-- The rule table as the specification describes it: keyword sets with their
replies, in the order about, services, technology, contact, location, price, time,
process, portfolio, testimonials, team, careers, blog, faq, greeting, help, goodbye. -/
def ruleTable : List (List String × String) :=
  [ (["zekitales", "about", "who are you"], aboutReply),
    (["service", "what do you do", "offer"], servicesReply),
    (["technology", "tech stack", "tools"], technologyReply),
    (["contact", "reach", "email", "call"], contactReply),
    (["location", "where", "address"], locationReply),
    (["price", "cost", "quote", "budget"], priceReply),
    (["time", "how long", "duration", "deadline"], timeReply),
    (["process", "workflow", "steps"], processReply),
    (["portfolio", "projects", "work"], portfolioReply),
    (["testimonial", "clients", "reviews"], testimonialsReply),
    (["team", "members", "staff"], teamReply),
    (["career", "jobs", "hiring"], careersReply),
    (["blog", "articles", "news"], blogReply),
    (["faq", "questions", "common"], faqReply),
    (["hello", "hi", "hey", "salam"], greetingReply),
    (["help", "support", "assist"], helpReply),
    (["bye", "goodbye", "see you"], goodbyeReply) ]

/-- A rule matches an input when one of its keywords is a substring of it (its
characters form a contiguous run of the input's characters). -/
def ruleMatches (input : String) (rule : List String × String) : Bool :=
  rule.1.any (fun kw => decide (kw.data <:+: input.data))

/-- First-match-wins lookup, as the specification states it: the reply of the first
rule of the table that matches the input, the default reply when none does. -/
def firstMatch (table : List (List String × String)) (input : String) : String :=
  match table.find? (ruleMatches input) with
  | some rule => rule.2
  | none => defaultReply

/-- An ASCII letter, upper or lower case. -/
def isAsciiLetter (c : Char) : Bool :=
  (65 ≤ c.toNat && c.toNat ≤ 90) || (97 ≤ c.toNat && c.toNat ≤ 122)

/-- Two characters are the same up to case: they are equal, or they are the upper-
and lower-case form of one ASCII letter (code points 32 apart). -/
def caseVariant (c d : Char) : Bool :=
  c == d ||
    (isAsciiLetter c && isAsciiLetter d &&
      (c.toNat == d.toNat + 32 || d.toNat == c.toNat + 32))

/-- Two character lists differ only in the case of their ASCII letters. -/
def differOnlyInCaseChars : List Char → List Char → Bool
  | [], [] => true
  | c :: cs, d :: ds => caseVariant c d && differOnlyInCaseChars cs ds
  | _, _ => false

/-- Two transcripts differ only in the case of their ASCII letters (`A`..`Z`,
`a`..`z`); every other character is the same in both. -/
def differOnlyInCase (s t : String) : Bool := differOnlyInCaseChars s.data t.data

/-- Does the lower-case form of the character contain an ASCII character?  These
are the letters `A`..`Z`, KELVIN SIGN (U+212A) and LATIN CAPITAL LETTER I WITH DOT
ABOVE (U+0130), and no other character of Unicode. -/
def hasAsciiLowerForm (c : Char) : Bool :=
  (65 ≤ c.toNat && c.toNat ≤ 90) || c.toNat == 0x212A || c.toNat == 0x0130

/-- May `img` be the lower-case form that `String.prototype.toLowerCase` gives an
occurrence of the character `c`?  The test fixes what bears on ASCII and leaves the
rest of the Unicode case tables open: a character whose lower-case form contains an
ASCII character has exactly the form `lowerChar c`; any other ASCII character is
kept; any other character has a lower-case form that is not empty and consists of
non-ASCII characters other than U+212A and U+0130 (whichever they are: `é` for `É`,
`σ` or `ς` for `Σ` according to its position, the character itself when it has no
lower-case mapping). -/
def isLowerFormOfChar (c : Char) (img : List Char) : Bool :=
  if hasAsciiLowerForm c then img == lowerChar c
  else if c.toNat < 128 then img == [c]
  else !img.isEmpty && img.all (fun d => 128 ≤ d.toNat && !hasAsciiLowerForm d)

/-- One admissible lower-case form for each character of a list, in order. -/
def areLowerFormBlocks : List Char → List (List Char) → Bool
  | [], [] => true
  | c :: cs, img :: imgs => isLowerFormOfChar c img && areLowerFormBlocks cs imgs
  | _, _ => false

/-- The string `l` may be `s.toLowerCase()`: it is the concatenation of one
admissible lower-case form for each character of `s`.  The value JavaScript computes
is such an `l` for every `s`. -/
def IsLowerCaseForm (s l : String) : Prop :=
  ∃ imgs : List (List Char), areLowerFormBlocks s.data imgs = true ∧ l.data = imgs.flatten

/-- The ASCII skeleton of a character list: the ASCII characters are kept and every
maximal run of non-ASCII characters is replaced by one U+0080.  The flag tells
whether the previous character was non-ASCII. -/
def squash : Bool → List Char → List Char
  | _, [] => []
  | prev, c :: rest =>
    if c.toNat < 128 then c :: squash false rest
    else if prev then squash true rest
    else Char.ofNat 128 :: squash true rest

/-- A keyword that is not empty and consists of ASCII characters. -/
def isAsciiKeyword (kw : String) : Bool :=
  !kw.data.isEmpty && kw.data.all (fun c => c.toNat < 128)

/-- Upper-case form of one character, as `String.prototype.toUpperCase` produces it
for the lower-case letters whose upper-case form is one ASCII letter: `a`..`z`,
LATIN SMALL LETTER DOTLESS I (U+0131, to `I`) and LATIN SMALL LETTER LONG S (U+017F,
to `S`).  Any other character is kept here. -/
def upperChar (c : Char) : Char :=
  if 97 ≤ c.toNat ∧ c.toNat ≤ 122 then Char.ofNat (c.toNat - 32)
  else if c.toNat = 0x0131 then Char.ofNat 0x49
  else if c.toNat = 0x017F then Char.ofNat 0x53
  else c

/-- Two characters are case forms of one letter: they are equal, or one is the
upper-case form (`upperChar`) or the lower-case form (`lowerChar`) of the other. -/
def caseForms (c d : Char) : Bool :=
  c == d || upperChar c == d || upperChar d == c || lowerChar c == [d] || lowerChar d == [c]

/-- Two character lists agree up to replacing letters by their other case form. -/
def caseFormsChars : List Char → List Char → Bool
  | [], [] => true
  | c :: cs, d :: ds => caseForms c d && caseFormsChars cs ds
  | _, _ => false

/-- Two transcripts differ only in the case of their letters, with the case pairs
`caseForms` knows: besides the ASCII pairs these are `I`/`ı` (U+0131), `S`/`ſ`
(U+017F) and `K` (U+212A)/`k`. -/
def differOnlyInLetterCase (s t : String) : Bool := caseFormsChars s.data t.data

/-! ## Page updates -/

/-- Model of `updateUI(state)`: both class attributes are reset to their base class,
the state's class is added unless the state is `idle`, and the start button is
relabelled and enabled or disabled. -/
def updateUI (w : World) (state : UIState) : World :=
  { w with dom := { w.dom with
      floatingBtnClass :=
        if state ≠ .idle then ["floating-btn", state.className] else ["floating-btn"]
      indicatorClass :=
        if state ≠ .idle then ["status-indicator", state.className] else ["status-indicator"]
      startBtnLabel :=
        match state with
        | .listening => .stopListening
        | .processing => .processing
        | .speaking => .speaking
        | .idle => .startListening
      startBtnDisabled :=
        match state with
        | .listening => false
        | .processing => true
        | .speaking => true
        | .idle => false } }

/-- Model of `showStatus(message)`. -/
def showStatus (w : World) (message : String) : World :=
  { w with dom := { w.dom with statusText := message } }

/-- Model of `showError(message)`: the status line and a notification. -/
def showError (w : World) (message : String) : World :=
  (showStatus w ("Error: " ++ message)).call (.notification message)

/-- Model of `updateTranscript(text)`. -/
def updateTranscript (w : World) (text : String) : World :=
  { w with dom := { w.dom with userTranscript := if strTruthy text then text else "..." } }

/-- The assignment `document.getElementById('aiResponse').textContent = text`. -/
def setAiResponse (w : World) (text : String) : World :=
  { w with dom := { w.dom with aiResponse := text } }

/-! ## Speech playback: `speak`, the utterance's handlers, `stopSpeaking` -/

/-- Does `speak` hand an utterance to the engine (so that its promise stays pending
until the utterance ends or fails)?  Otherwise `speak` returns at once. -/
def speakEnqueues (w : World) : Bool := w.agent.synthesis && !w.agent.isSpeaking

/-- Model of the synchronous part of `speak(text)`. -/
def speak (w : World) (text : String) : World :=
  if !w.agent.synthesis || w.agent.isSpeaking then w
  else
    (w.call .synthesisCancel).call (.synthesisSpeak
      { text := text
        voice := w.agent.currentVoice
        rate := w.agent.config.voiceRate
        pitch := w.agent.config.voicePitch
        volume := w.agent.config.voiceVolume })

/-- Handler `utterance.onstart`. -/
def utteranceOnstart (w : World) : World :=
  showStatus (updateUI { w with agent := { w.agent with isSpeaking := true } } .speaking)
    "Speaking..."

/-- Handler `utterance.onend`. -/
def utteranceOnend (w : World) : World :=
  showStatus (updateUI { w with agent := { w.agent with isSpeaking := false } } .idle)
    "Ready to help"

/-- Handler `utterance.onerror`. -/
def utteranceOnerror (w : World) : World :=
  updateUI { w with agent := { w.agent with isSpeaking := false } } .idle

/-- Model of `stopSpeaking()`. -/
def stopSpeaking (w : World) : World :=
  if w.agent.synthesis then
    showStatus
      (updateUI { (w.call .synthesisCancel) with
        agent := { w.agent with isSpeaking := false } } .idle)
      "Speech stopped"
  else w

/-- How the engine finishes an utterance: whether its `start` event fires, and
whether it then ends normally or with an error. -/
structure SpeechRun where
  started : Bool
  failed : Bool

/-- The utterance's events, in order, applied to the world. -/
def runUtterance (w : World) (run : SpeechRun) : World :=
  let w1 := if run.started then utteranceOnstart w else w
  if run.failed then utteranceOnerror w1 else utteranceOnend w1

/-- The statement `await this.speak(text)`: the synchronous part of `speak` and,
when an utterance was enqueued, the utterance's events. -/
def awaitSpeak (w : World) (text : String) (run : SpeechRun) : World :=
  if speakEnqueues w then runUtterance (speak w text) run else speak w text

/-! ## `processVoiceInput` -/

/-- The fixed reply of the `catch` block of `processVoiceInput`. -/
def errorResponse : String :=
  "I'm sorry, I encountered an error processing your request. Please try again."

/-- The first statements of `processVoiceInput`, up to the credential test. -/
def processVoiceInputEnter (w : World) (transcript : String) : World :=
  let w1 := { w with agent := { w.agent with isProcessing := true } }
  let w2 := showStatus (updateUI w1 .processing) "Processing your request..."
  { w2 with dom := { w2.dom with userTranscript := transcript } }

/-- The `finally` block of `processVoiceInput`. -/
def processVoiceInputFinally (w : World) : World :=
  updateUI { w with agent := { w.agent with isProcessing := false } } .idle

/-- Model of `processVoiceInput(transcript)` run to completion, given how the
`fetch` settles (used on the credential path only) and how the utterance finishes. -/
def processVoiceInput (w : World) (transcript : String) (outcome : FetchOutcome)
    (run : SpeechRun) : World :=
  let w1 := processVoiceInputEnter w transcript
  let w2 :=
    if truthy w1.agent.apiKey then
      match getAIResponse w1 transcript outcome with
      | (w', .ok response) => awaitSpeak (setAiResponse w' response) response run
      | (w', .error _) => awaitSpeak (setAiResponse w' errorResponse) errorResponse run
    else
      let response := getPredefinedResponse transcript
      awaitSpeak (setAiResponse w1 response) response run
  processVoiceInputFinally w2

/-- The synchronous first segment of `processVoiceInput`, up to its first `await`:
on the credential path the request is sent, otherwise the canned reply is chosen,
shown and handed to `speak`. -/
def processVoiceInputStart (w : World) (transcript : String) : World :=
  let w1 := processVoiceInputEnter w transcript
  if truthy w1.agent.apiKey then w1.call (.fetch (chatRequest w1.agent transcript))
  else
    let response := getPredefinedResponse transcript
    speak (setAiResponse w1 response) response

/-- The segment of `processVoiceInput` that runs when the `fetch` has settled, up to
the `await` on `speak`. -/
def processVoiceInputSettle (w : World) (transcript : String) (outcome : FetchOutcome) : World :=
  match getAIResponseSettle w transcript outcome with
  | (w', .ok response) => speak (setAiResponse w' response) response
  | (w', .error _) => speak (setAiResponse w' errorResponse) errorResponse

/-! ## Speech capture: the recognizer's handlers, `startListening`, `stopListening` -/

/-- One entry of `event.results`: its `isFinal` mark and the transcript of its first
alternative (`results[i][0].transcript`). -/
structure SpeechResult where
  isFinal : Bool
  transcript : String
  deriving DecidableEq, Repr

/-- A recognition `result` event. -/
structure RecognitionEvent where
  resultIndex : Nat
  results : List SpeechResult
  deriving DecidableEq, Repr

/-- The loop of `recognition.onresult`: for `i` from `resultIndex` to
`results.length - 1`, append the transcript to the final or to the interim
accumulator.  The result is `(finalTranscript, interimTranscript)`. -/
def collectTranscripts (e : RecognitionEvent) : String × String :=
  (List.range' e.resultIndex (e.results.length - e.resultIndex)).foldl
    (fun acc i =>
      match e.results[i]? with
      | some r =>
        if r.isFinal then (acc.1 ++ r.transcript, acc.2) else (acc.1, acc.2 ++ r.transcript)
      | none => acc)
    ("", "")

/-- The argument with which `recognition.onresult` calls `processVoiceInput`, or
`none` when it does not call it. -/
def onresultDispatch (e : RecognitionEvent) : Option String :=
  let finalTranscript := (collectTranscripts e).1
  if strTruthy finalTranscript then some (trim finalTranscript) else none

/-- Handler `recognition.onstart`. -/
def recognitionOnstart (w : World) : World :=
  showStatus (updateUI { w with agent := { w.agent with isListening := true } } .listening)
    "Listening... Speak now"

/-- Handler `recognition.onresult`, up to the first `await` of the
`processVoiceInput` call it may start. -/
def recognitionOnresult (w : World) (e : RecognitionEvent) : World :=
  let t := collectTranscripts e
  let w1 := updateTranscript w (t.1 ++ t.2)
  match onresultDispatch e with
  | some transcript => processVoiceInputStart w1 transcript
  | none => w1

/-- The message `recognition.onerror` builds for an error kind. -/
def recognitionErrorMessage (kind : String) : String :=
  "Speech recognition error: " ++
    (if kind = "no-speech" then "No speech detected. Please try again."
     else if kind = "audio-capture" then "Microphone not accessible. Please check permissions."
     else if kind = "not-allowed" then "Microphone access denied. Please allow microphone access."
     else kind)

/-- Handler `recognition.onerror`. -/
def recognitionOnerror (w : World) (kind : String) : World :=
  showError (updateUI { w with agent := { w.agent with isListening := false } } .idle)
    (recognitionErrorMessage kind)

/-- Handler `recognition.onend`. -/
def recognitionOnend (w : World) : World :=
  let w1 := { w with agent := { w.agent with isListening := false } }
  if !w1.agent.isProcessing then showStatus (updateUI w1 .idle) "Click to start listening"
  else w1

/-- Model of `startListening()`; `startThrows` tells whether `recognition.start()`
throws (the recognizer was already started). -/
def startListening (w : World) (startThrows : Bool) : World :=
  if !w.agent.recognition || w.agent.isListening then w
  else
    let w1 := w.call .recognitionStart
    if startThrows then showError w1 "Failed to start listening. Please try again."
    else { w1 with dom := { w1.dom with startBtnLabel := .stopListening } }

/-- Model of `stopListening()`. -/
def stopListening (w : World) : World :=
  if w.agent.recognition && w.agent.isListening then
    let w1 := w.call .recognitionStop
    let w2 := updateUI { w1 with agent := { w1.agent with isListening := false } } .idle
    { w2 with dom := { w2.dom with startBtnLabel := .startListening } }
  else w

/-! ## The widget as a transition system -/

/-- The events and operations that drive the widget. -/
inductive Event where
  | recognitionStart
  | recognitionResult (e : RecognitionEvent)
  | recognitionError (kind : String)
  | recognitionEnd
  | startListening (startThrows : Bool)
  | stopListening
  | processVoiceInput (transcript : String)
  | fetchSettled (transcript : String) (outcome : FetchOutcome)
  | processingDone
  | speak (text : String)
  | utteranceStart
  | utteranceEnd
  | utteranceError
  | stopSpeaking

/-- One step: the handler of the event applied to the world.  `processVoiceInput`
is its first segment; `fetchSettled` and `processingDone` are its later segments. -/
def step (w : World) : Event → World
  | .recognitionStart => recognitionOnstart w
  | .recognitionResult e => recognitionOnresult w e
  | .recognitionError kind => recognitionOnerror w kind
  | .recognitionEnd => recognitionOnend w
  | .startListening startThrows => startListening w startThrows
  | .stopListening => stopListening w
  | .processVoiceInput transcript => processVoiceInputStart w transcript
  | .fetchSettled transcript outcome => processVoiceInputSettle w transcript outcome
  | .processingDone => processVoiceInputFinally w
  | .speak text => speak w text
  | .utteranceStart => utteranceOnstart w
  | .utteranceEnd => utteranceOnend w
  | .utteranceError => utteranceOnerror w
  | .stopSpeaking => stopSpeaking w

/-- The world after a sequence of events. -/
def runEvents (w : World) (events : List Event) : World := events.foldl step w

/-- The page as `createVoiceInterface` builds it. -/
def initialDom : Dom :=
  { floatingBtnClass := ["floating-btn"]
    indicatorClass := ["status-indicator"]
    startBtnLabel := .startListening
    startBtnDisabled := false
    statusText := "Ready to help"
    userTranscript := "..."
    aiResponse := "..." }

/-- The world right after construction and initialisation: the three flags are
false, the history is empty, the page is as created and no call has been made.
Credential, engines, voices and configuration are whatever the options and the
browser provide. -/
def IsInitial (w : World) : Prop :=
  w.agent.isListening = false ∧ w.agent.isProcessing = false ∧ w.agent.isSpeaking = false ∧
  w.agent.conversationHistory = [] ∧ w.dom = initialDom ∧ w.calls = []

/-- Worlds reachable from an initial world by events. -/
inductive Reachable : World → Prop where
  | init (w : World) (h : IsInitial w) : Reachable w
  | step (w : World) (e : Event) (h : Reachable w) : Reachable (step w e)

/-- The class attributes of the floating button and of the status indicator. -/
def uiClasses (w : World) : List String × List String :=
  (w.dom.floatingBtnClass, w.dom.indicatorClass)

/-- The class attributes `updateUI` writes for a state. -/
def classesFor (st : UIState) : List String × List String :=
  (if st ≠ .idle then ["floating-btn", st.className] else ["floating-btn"],
   if st ≠ .idle then ["status-indicator", st.className] else ["status-indicator"])

/-- The states among listening, processing and speaking whose class the floating
button carries. -/
def shownStates (w : World) : List UIState :=
  [UIState.listening, UIState.processing, UIState.speaking].filter
    (fun st => w.dom.floatingBtnClass.contains st.className)

/-- The states among listening, processing and speaking whose class the status
indicator carries. -/
def indicatedStates (w : World) : List UIState :=
  [UIState.listening, UIState.processing, UIState.speaking].filter
    (fun st => w.dom.indicatorClass.contains st.className)

/-- The number of flags among `isListening`, `isProcessing`, `isSpeaking` that are true. -/
def activeFlags (w : World) : Nat :=
  w.agent.isListening.toNat + w.agent.isProcessing.toNat + w.agent.isSpeaking.toNat

/-- A concrete agent as the page's loader builds it, without a stored credential. -/
def sampleAgent : Agent :=
  { apiKey := none
    isListening := false
    isProcessing := false
    isSpeaking := false
    recognition := true
    synthesis := true
    voices := [⟨"Google US English", "en-US"⟩]
    currentVoice := some ⟨"Google US English", "en-US"⟩
    config :=
      { language := "en-US"
        voiceRate := 1
        voicePitch := 1
        voiceVolume := 1
        autoListen := false
        maxSpeechLength := 30000
        silenceTimeout := 3000
        aiModel := "gpt-3.5-turbo"
        systemPrompt := "You are a helpful AI assistant for Zekitales digital agency. Provide brief, friendly responses (2-3 sentences max) about web development, design, digital services, and company information. Be conversational and helpful." }
    conversationHistory := [] }

/-- The initial world of `sampleAgent`. -/
def sampleWorld : World := { agent := sampleAgent, dom := initialDom, calls := [] }

/-- The initial world of `sampleAgent` with a credential configured. -/
def sampleWorldWithKey : World :=
  { sampleWorld with agent := { sampleAgent with apiKey := some "sk-test" } }

/-- The sample agent while listening: the recognizer has started. -/
def listeningWorld : World := runEvents sampleWorld [.startListening false, .recognitionStart]

/-- The events of an ordinary exchange up to the final transcript: the user starts
listening, the recognizer starts and delivers the final transcript "hello". -/
def heardEvents : List Event :=
  [.startListening false, .recognitionStart, .recognitionResult ⟨0, [⟨true, "hello"⟩]⟩]

/-- The same exchange continued: the recognizer ends and the reply starts playing. -/
def replyingEvents : List Event := heardEvents ++ [.recognitionEnd, .utteranceStart]

/-- A result event whose only segment is final and consists of one space. -/
def blankFinalEvent : RecognitionEvent := ⟨0, [⟨true, " "⟩]⟩

/-- A success body whose `choices[0].message.content` is the given string. -/
def chatBody (content : String) : Json :=
  .obj [("choices", .arr [.obj [("message", .obj [("role", .str "assistant"), ("content", .str content)])]])]

/-- A success response (status 200) with the given reply content. -/
def okResponse (content : String) : FetchOutcome :=
  .response { ok := true, status := 200, body := some (chatBody content) }

/-- The endpoint's answer is a failure: the request was rejected, the status is not
a success status, or the body is malformed (it is not JSON, or it has no string at
`choices[0].message.content`). -/
def endpointFails : FetchOutcome → Bool
  | .rejected => true
  | .response r =>
    !r.ok ||
      (match r.body with
       | none => true
       | some data =>
         match choiceContent data with
         | .ok (some (.str _)) => false
         | _ => true)

/-- The calls `speak(text)` makes in a world: none when it returns at once. -/
def speakCalls (w : World) (text : String) : List Call :=
  if speakEnqueues w then
    [.synthesisCancel, .synthesisSpeak
      { text := text
        voice := w.agent.currentVoice
        rate := w.agent.config.voiceRate
        pitch := w.agent.config.voicePitch
        volume := w.agent.config.voiceVolume }]
  else []

/-- A malformed success body: `choices` is an empty array. -/
def emptyChoices : FetchOutcome :=
  .response { ok := true, status := 200, body := some (.obj [("choices", .arr [])]) }

/-- A non-success answer (status 500) carrying a well-formed body. -/
def serverError : FetchOutcome :=
  .response { ok := false, status := 500, body := some (chatBody "Hello") }

/-- Six successful exchanges, used to exercise the history window. -/
def sixCalls : List (String × FetchOutcome) :=
  [("one", okResponse "r1"), ("two", okResponse "r2"), ("three", okResponse "r3"),
   ("four", okResponse "r4"), ("five", okResponse "r5"), ("six", okResponse "r6")]

/-- The world after the six exchanges of `sixCalls`, from `sampleWorldWithKey`. -/
def sixCallsEnd : World :=
  ((afterCalls sampleWorldWithKey sixCalls).getLast?).getD sampleWorldWithKey

/-! ## Voice selection: `loadVoices` -/

/-- Model of `s.startsWith(p)`. -/
def startsWith (s p : String) : Bool := p.data.isPrefixOf s.data

/-- The first test of `loadVoices`: the language tag starts with `en` and the name
contains `Google`. -/
def isEnglishGoogle (voice : Voice) : Bool :=
  startsWith voice.lang "en" && includes voice.name "Google"

/-- The second test of `loadVoices`: the language tag starts with `en`. -/
def isEnglish (voice : Voice) : Bool := startsWith voice.lang "en"

/-- The expression `voices.find(..) || voices.find(..) || voices[0]` of `loadVoices`
(a voice object is truthy, `undefined` is not). -/
def selectVoice (voices : List Voice) : Option Voice :=
  match voices.find? isEnglishGoogle with
  | some v => some v
  | none =>
    match voices.find? isEnglish with
    | some v => some v
    | none => voices.head?

/-- Model of one run of `loadVoices`, given the list `synthesis.getVoices()`
returns: the list is stored, and when it is not empty a voice is selected (an empty
list schedules another run and selects nothing). -/
def loadVoices (a : Agent) (available : List Voice) : Agent :=
  let a1 := { a with voices := available }
  if available.length > 0 then { a1 with currentVoice := selectVoice available } else a1

/-- The selection as the specification words it, for a locale given by a language
tag: the first voice whose tag is the locale's and whose name contains the
preferred vendor name, else the first voice whose tag is the locale's, else the
first voice. -/
def preferredVoice (language : String) (voices : List Voice) : Option Voice :=
  match voices.find? (fun v => v.lang = language && includes v.name "Google") with
  | some v => some v
  | none =>
    match voices.find? (fun v => v.lang = language) with
    | some v => some v
    | none => voices.head?

/-- Voices of a French browser: a Google French voice first, an English voice second. -/
def frenchVoices : List Voice := [⟨"Google français", "fr-FR"⟩, ⟨"Microsoft David", "en-US"⟩]

/-- The sample agent configured for French. -/
def frenchAgent : Agent :=
  { sampleAgent with
    voices := []
    currentVoice := none
    config := { sampleAgent.config with language := "fr-FR" } }

/-! ## Construction: `constructor(options)` -/

/-- The `options` object of the constructor.  A field is `none` when the option is
absent; a present option holds a value of the type the widget expects for it (a
number other than `NaN` for the numeric settings). -/
structure Options where
  apiKey : Option String
  language : Option String
  voiceRate : Option ℚ
  voicePitch : Option ℚ
  voiceVolume : Option ℚ
  autoListen : Option Bool
  maxSpeechLength : Option ℚ
  silenceTimeout : Option ℚ
  aiModel : Option String
  systemPrompt : Option String

/-- The expression `x || d` for an optional string: `d` unless `x` is a non-empty string. -/
def orString (x : Option String) (d : String) : String :=
  match x with
  | some s => if strTruthy s then s else d
  | none => d

/-- The expression `x || d` for an optional number: `d` unless `x` is a number other
than zero. -/
def orNumber (x : Option ℚ) (d : ℚ) : ℚ :=
  match x with
  | some n => if n ≠ 0 then n else d
  | none => d

/-- The expression `x || d` for an optional truth value: `d` unless `x` is `true`. -/
def orBool (x : Option Bool) (d : Bool) : Bool :=
  match x with
  | some b => if b then b else d
  | none => d

/-- The default system prompt of the constructor. -/
def defaultSystemPrompt : String :=
  "You are a helpful AI assistant for Zekitales digital agency. Provide brief, friendly responses about web development, design, and digital services."

/-- The object `this.config` the constructor builds. -/
def constructorConfig (options : Options) : Config :=
  { language := orString options.language "en-US"
    voiceRate := orNumber options.voiceRate 1
    voicePitch := orNumber options.voicePitch 1
    voiceVolume := orNumber options.voiceVolume 1
    autoListen := orBool options.autoListen false
    maxSpeechLength := orNumber options.maxSpeechLength 30000
    silenceTimeout := orNumber options.silenceTimeout 3000
    aiModel := orString options.aiModel "gpt-3.5-turbo"
    systemPrompt := orString options.systemPrompt defaultSystemPrompt }

/-- Model of the assignments of `constructor(options)`; `synthesis` tells whether
`window.speechSynthesis` exists. -/
def constructAgent (options : Options) (synthesis : Bool) : Agent :=
  { apiKey :=
      match options.apiKey with
      | some s => if strTruthy s then some s else none
      | none => none
    isListening := false
    isProcessing := false
    isSpeaking := false
    recognition := false
    synthesis := synthesis
    voices := []
    currentVoice := none
    config := constructorConfig options
    conversationHistory := [] }

/-- The empty options object. -/
def noOptions : Options :=
  { apiKey := none, language := none, voiceRate := none, voicePitch := none,
    voiceVolume := none, autoListen := none, maxSpeechLength := none,
    silenceTimeout := none, aiModel := none, systemPrompt := none }

/-- Options that mute the voice and name no language: volume `0`, language `""`. -/
def mutedOptions : Options := { noOptions with voiceVolume := some 0, language := some "" }

/-- Options with truthy values: language `fr-FR`, rate `3/2`, auto-listen on. -/
def frenchOptions : Options :=
  { noOptions with language := some "fr-FR", voiceRate := some (3 / 2), autoListen := some true }

/-! ## Further definitions for the recognizer's result and the rule table -/

/-- The transcripts of a list of results, concatenated in order. -/
def joinTranscripts : List SpeechResult → String
  | [] => ""
  | r :: rest => r.transcript ++ joinTranscripts rest

/-- A result event with two old results before `resultIndex`, then a final, an
interim and a final result. -/
def mixedEvent : RecognitionEvent :=
  ⟨2, [⟨true, "old "⟩, ⟨false, "older"⟩, ⟨true, "what do "⟩, ⟨false, "you"⟩, ⟨true, "offer"⟩]⟩

/-- A result event with interim results only. -/
def interimEvent : RecognitionEvent := ⟨0, [⟨false, "what do"⟩, ⟨false, " you"⟩]⟩

/-- One transcript for each rule of `ruleTable`, in table order. -/
def sampleTranscripts : List String :=
  ["about", "service", "technology", "contact", "location", "price", "time", "process",
   "portfolio", "testimonial", "team", "career", "blog", "faq", "hello", "help", "bye"]

/-- Is rule `i` of `ruleTable` the first rule that matches the lower-cased
transcript `t`: no rule before it matches and it does. -/
def firstMatchedAt (t : String) (i : Nat) : Bool :=
  (ruleTable.take i).all (fun r => !ruleMatches (toLowerCase t) r) &&
    (match ruleTable[i]? with
     | some r => ruleMatches (toLowerCase t) r
     | none => false)

/-- The sample agent while the reply of an ordinary exchange is playing. -/
def replyingWorld : World := runEvents sampleWorld replyingEvents

/-! ## Conversation history: lemmas -/

theorem sliceLast_of_length_le (n : Nat) (xs : List Turn) (h : xs.length ≤ n) :
    sliceLast n xs = xs := by
  unfold sliceLast
  rw [Nat.sub_eq_zero_of_le h, List.drop_zero]

theorem length_sliceLast (n : Nat) (xs : List Turn) : (sliceLast n xs).length ≤ n := by
  unfold sliceLast
  rw [List.length_drop]
  omega

theorem sliceLast_append_sliceLast (n : Nat) (xs ys : List Turn) :
    sliceLast n (sliceLast n xs ++ ys) = sliceLast n (xs ++ ys) := by
  by_cases h : xs.length ≤ n
  · rw [sliceLast_of_length_le n xs h]
  · have hlen : (xs.drop (xs.length - n)).length = n := by
      rw [List.length_drop]; omega
    unfold sliceLast
    rw [List.length_append, List.length_append, hlen]
    have h1 : n + ys.length - n = ys.length := by omega
    have h2 : xs.length + ys.length - n = xs.length - n + ys.length := by omega
    rw [h1, h2, ← List.drop_drop]
    congr 1
    rw [List.drop_append_of_le_length (by omega)]

theorem updateHistory_eq (history : List Turn) (u r : String) :
    updateHistory history u r = sliceLast 10 (history ++ [⟨.user, u⟩, ⟨.assistant, r⟩]) := by
  unfold updateHistory
  simp only
  split
  · rfl
  · rw [sliceLast_of_length_le]; omega

theorem length_updateHistory (history : List Turn) (u r : String) :
    (updateHistory history u r).length ≤ 10 := by
  rw [updateHistory_eq]; exact length_sliceLast _ _

/-- What `getAIResponseSettle` does, by result: an error leaves the world as it
was; a reply `r` comes with the history updated by the exchange. -/
theorem getAIResponseSettle_spec (w : World) (u : String) (o : FetchOutcome) :
    (∃ e, getAIResponseSettle w u o = (w, .error e)) ∨
    (∃ r, getAIResponseSettle w u o =
      ({ w with agent := { w.agent with
          conversationHistory := updateHistory w.agent.conversationHistory u r } }, .ok r)) := by
  unfold getAIResponseSettle
  cases o with
  | rejected => exact Or.inl ⟨_, rfl⟩
  | response r =>
    simp only
    split
    · exact Or.inl ⟨_, rfl⟩
    · split
      · exact Or.inl ⟨_, rfl⟩
      · split
        · exact Or.inl ⟨_, rfl⟩
        · exact Or.inr ⟨_, rfl⟩

/-- What `getAIResponse` does to the agent, by result. -/
theorem getAIResponse_spec (w : World) (u : String) (o : FetchOutcome) :
    (∃ e, (getAIResponse w u o).2 = .error e ∧ (getAIResponse w u o).1.agent = w.agent) ∨
    (∃ r, (getAIResponse w u o).2 = .ok r ∧ (getAIResponse w u o).1.agent =
      { w.agent with conversationHistory := updateHistory w.agent.conversationHistory u r }) := by
  unfold getAIResponse
  split
  · exact Or.inl ⟨_, rfl, rfl⟩
  · rcases getAIResponseSettle_spec (w.call (.fetch (chatRequest w.agent u))) u o with
      ⟨e, h⟩ | ⟨r, h⟩
    · rw [h]; exact Or.inl ⟨e, rfl, rfl⟩
    · rw [h]; exact Or.inr ⟨r, rfl, rfl⟩

theorem getAIResponse_agent_of_ok (w : World) (u : String) (o : FetchOutcome) (r : String)
    (h : (getAIResponse w u o).2 = .ok r) :
    (getAIResponse w u o).1.agent =
      { w.agent with conversationHistory := updateHistory w.agent.conversationHistory u r } := by
  rcases getAIResponse_spec w u o with ⟨e, he, _⟩ | ⟨r2, hr, ha⟩
  · rw [he] at h; cases h
  · rw [hr] at h; cases h; exact ha

theorem length_history_getAIResponse (w : World) (u : String) (o : FetchOutcome)
    (h : w.agent.conversationHistory.length ≤ 10) :
    (getAIResponse w u o).1.agent.conversationHistory.length ≤ 10 := by
  rcases getAIResponse_spec w u o with ⟨e, _, ha⟩ | ⟨r, _, ha⟩
  · rw [ha]; exact h
  · rw [ha]; exact length_updateHistory _ _ _

theorem length_history_afterCalls (calls : List (String × FetchOutcome)) :
    ∀ w : World, w.agent.conversationHistory.length ≤ 10 →
      ∀ w1 ∈ afterCalls w calls, w1.agent.conversationHistory.length ≤ 10 := by
  induction calls with
  | nil => intro w _ w1 h1; simp [afterCalls] at h1
  | cons c rest ih =>
    intro w hw w1 h1
    obtain ⟨u, o⟩ := c
    simp only [afterCalls, List.mem_cons] at h1
    have hstep := length_history_getAIResponse w u o hw
    rcases h1 with h1 | h1
    · rw [h1]; exact hstep
    · exact ih _ hstep w1 h1

theorem length_turnsOf (us rs : List String) (h : us.length = rs.length) :
    (turnsOf us rs).length = 2 * us.length := by
  induction us generalizing rs with
  | nil => cases rs <;> simp [turnsOf]
  | cons u us ih =>
    cases rs with
    | nil => simp at h
    | cons r rs =>
      simp only [turnsOf, List.length_cons] at h ⊢
      rw [ih rs (by omega)]; omega

theorem getAIResponseAll_cons (w : World) (u : String) (o : FetchOutcome)
    (rest : List (String × FetchOutcome)) (rs : List String) (w1 : World)
    (h : getAIResponseAll w ((u, o) :: rest) = some (rs, w1)) :
    ∃ r rs1, (getAIResponse w u o).2 = .ok r ∧ rs = r :: rs1 ∧
      getAIResponseAll (getAIResponse w u o).1 rest = some (rs1, w1) := by
  unfold getAIResponseAll at h
  generalize getAIResponse w u o = p at h ⊢
  obtain ⟨wa, res⟩ := p
  cases res with
  | error e => simp at h
  | ok r =>
    simp only [Option.map_eq_some', Prod.mk.injEq, Prod.exists] at h
    obtain ⟨rs1, w2, hall, hrs, hw2⟩ := h
    subst hrs hw2
    exact ⟨r, rs1, rfl, rfl, hall⟩

theorem getAIResponseAll_history (calls : List (String × FetchOutcome)) :
    ∀ (w : World) (rs : List String) (w1 : World),
      w.agent.conversationHistory.length ≤ 10 →
      getAIResponseAll w calls = some (rs, w1) →
      rs.length = calls.length ∧
      w1.agent.conversationHistory =
        sliceLast 10 (w.agent.conversationHistory ++ turnsOf (calls.map Prod.fst) rs) := by
  induction calls with
  | nil =>
    intro w rs w1 hw h
    simp only [getAIResponseAll, Option.some.injEq, Prod.mk.injEq] at h
    obtain ⟨h1, h2⟩ := h
    subst h1 h2
    simp only [List.map_nil, turnsOf, List.append_nil, List.length_nil, true_and]
    rw [sliceLast_of_length_le _ _ hw]
  | cons c rest ih =>
    intro w rs w1 hw h
    obtain ⟨u, o⟩ := c
    obtain ⟨r, rs1, hr, hrs, hall⟩ := getAIResponseAll_cons w u o rest rs w1 h
    subst hrs
    have ha := getAIResponse_agent_of_ok w u o r hr
    have hwa : (getAIResponse w u o).1.agent.conversationHistory.length ≤ 10 :=
      length_history_getAIResponse w u o hw
    obtain ⟨hlen, hhist⟩ := ih _ rs1 w1 hwa hall
    refine ⟨by simp [hlen], ?_⟩
    rw [hhist, ha]
    simp only [List.map_cons, turnsOf]
    rw [updateHistory_eq, sliceLast_append_sliceLast]
    simp

/-! ## Conversation history: the claims -/

/-- C1. Starting from an empty conversation history, after each call of any
sequence of `getAIResponse` calls (in particular of successful ones) the history
holds at most 10 entries. -/
theorem history_length_le_ten (w : World) (calls : List (String × FetchOutcome))
    (h0 : w.agent.conversationHistory = []) :
    ∀ w1 ∈ afterCalls w calls, w1.agent.conversationHistory.length ≤ 10 :=
  length_history_afterCalls calls w (by rw [h0]; simp)

/-- Witness for C1: six successful calls from the empty history of
`sampleWorldWithKey`. -/
theorem history_length_le_ten_witness :
    sampleWorldWithKey.agent.conversationHistory = [] ∧
    (getAIResponseAll sampleWorldWithKey sixCalls).isSome = true ∧
    (afterCalls sampleWorldWithKey sixCalls).length = 6 ∧
    ∀ w1 ∈ afterCalls sampleWorldWithKey sixCalls, w1.agent.conversationHistory.length ≤ 10 :=
  ⟨rfl, rfl, rfl, history_length_le_ten sampleWorldWithKey sixCalls rfl⟩

/-- C2. When `getAIResponse` returns the reply `r`, the history it leaves is the
last 10 entries of the previous history followed by the user turn and the assistant
turn (all of them when there are at most 10).  After 6 successful calls from an
empty history, the history is the turns of calls 2 to 6 in order: the first call's
two turns are gone and the other 10 keep their order. -/
theorem getAIResponse_history (w : World) (u : String) (o : FetchOutcome) (r : String) :
    ((getAIResponse w u o).2 = .ok r →
      (getAIResponse w u o).1.agent.conversationHistory =
          sliceLast 10 (w.agent.conversationHistory ++ [⟨.user, u⟩, ⟨.assistant, r⟩]) ∧
      (w.agent.conversationHistory.length + 2 ≤ 10 →
        (getAIResponse w u o).1.agent.conversationHistory =
          w.agent.conversationHistory ++ [⟨.user, u⟩, ⟨.assistant, r⟩])) ∧
    (∀ (calls : List (String × FetchOutcome)) (rs : List String) (w6 : World),
      w.agent.conversationHistory = [] → calls.length = 6 →
      getAIResponseAll w calls = some (rs, w6) →
      w6.agent.conversationHistory = (turnsOf (calls.map Prod.fst) rs).drop 2 ∧
      w6.agent.conversationHistory = turnsOf (calls.map Prod.fst).tail rs.tail ∧
      w6.agent.conversationHistory.length = 10) := by
  refine ⟨fun h => ?_, ?_⟩
  · rw [getAIResponse_agent_of_ok w u o r h]
    simp only
    refine ⟨updateHistory_eq _ _ _, fun hlen => ?_⟩
    rw [updateHistory_eq, sliceLast_of_length_le]
    simp only [List.length_append, List.length_cons, List.length_nil]
    omega
  · intro calls rs w6 h0 hlen hall
    obtain ⟨hrs, hhist⟩ := getAIResponseAll_history calls w rs w6 (by rw [h0]; simp) hall
    have hl : (turnsOf (calls.map Prod.fst) rs).length = 12 := by
      rw [length_turnsOf _ _ (by simp [hrs]), List.length_map, hlen]
    rw [h0, List.nil_append] at hhist
    have hdrop : w6.agent.conversationHistory = (turnsOf (calls.map Prod.fst) rs).drop 2 := by
      rw [hhist]; unfold sliceLast; rw [hl]
    refine ⟨hdrop, ?_, ?_⟩
    · rw [hdrop]
      match calls, rs, hlen, hrs with
      | c :: cs, r1 :: rs1, _, _ => simp [turnsOf]
    · rw [hdrop, List.length_drop, hl]

/-- Witness for C2: one successful call, and the six calls of `sixCalls`, from the
empty history of `sampleWorldWithKey`. -/
theorem getAIResponse_history_witness :
    ((getAIResponse sampleWorldWithKey "hi" (okResponse "Hello")).2 = .ok "Hello" ∧
      (getAIResponse sampleWorldWithKey "hi" (okResponse "Hello")).1.agent.conversationHistory =
        sampleWorldWithKey.agent.conversationHistory ++
          [⟨.user, "hi"⟩, ⟨.assistant, "Hello"⟩]) ∧
    (getAIResponseAll sampleWorldWithKey sixCalls =
        some (["r1", "r2", "r3", "r4", "r5", "r6"], sixCallsEnd) ∧
      sixCallsEnd.agent.conversationHistory =
        (turnsOf (sixCalls.map Prod.fst) ["r1", "r2", "r3", "r4", "r5", "r6"]).drop 2) :=
  ⟨⟨rfl, ((getAIResponse_history sampleWorldWithKey "hi" (okResponse "Hello") "Hello").1 rfl).2
      (by decide)⟩,
   ⟨rfl, ((getAIResponse_history sampleWorldWithKey "hi" (okResponse "Hello") "Hello").2
      sixCalls ["r1", "r2", "r3", "r4", "r5", "r6"] sixCallsEnd rfl rfl rfl).1⟩⟩

/-! ## The remote path: reply and failure -/

theorem replyContent_of_content (data : Json) (c : String)
    (h : choiceContent data = .ok (some (.str c))) : replyContent data = .ok (trim c) := by
  unfold replyContent
  rw [h]
  rfl

theorem replyContent_error_of_not_string (data : Json)
    (h : ∀ c, choiceContent data ≠ .ok (some (.str c))) : ∃ e, replyContent data = .error e := by
  unfold replyContent
  cases hc : choiceContent data with
  | error e => exact ⟨e, rfl⟩
  | ok v =>
    cases v with
    | none => exact ⟨_, rfl⟩
    | some j =>
      cases j with
      | str c => exact absurd hc (h c)
      | null => exact ⟨_, rfl⟩
      | bool b => exact ⟨_, rfl⟩
      | num n => exact ⟨_, rfl⟩
      | arr xs => exact ⟨_, rfl⟩
      | obj ms => exact ⟨_, rfl⟩

/-- A failing answer makes `getAIResponseSettle` throw and leave the world as it was. -/
theorem getAIResponseSettle_of_fails (w : World) (u : String) (o : FetchOutcome)
    (hfail : endpointFails o = true) : ∃ e, getAIResponseSettle w u o = (w, .error e) := by
  cases o with
  | rejected => exact ⟨_, rfl⟩
  | response r =>
    unfold getAIResponseSettle
    simp only [endpointFails, Bool.or_eq_true, Bool.not_eq_true'] at hfail
    simp only
    split
    · exact ⟨_, rfl⟩
    · rename_i hok
      rcases hfail with hf | hf
      · simp [hf] at hok
      · split
        · exact ⟨_, rfl⟩
        · rename_i data hbody
          rw [hbody] at hf
          simp only at hf
          have hns : ∀ c, choiceContent data ≠ .ok (some (.str c)) := by
            intro c hc
            rw [hc] at hf
            simp at hf
          obtain ⟨e, he⟩ := replyContent_error_of_not_string data hns
          rw [he]
          exact ⟨e, rfl⟩

/-- C3 (as amended). With a credential configured, for a success response whose
`choices[0].message.content` is a string `c`, `getAIResponse` returns `c` with the
white space at both ends removed (so exactly `c` when `c` has none there), sends
one request, and leaves the history equal to the last 10 entries of the previous
history followed by one user turn and one assistant turn holding the returned reply
(all of them when there are at most 10); no other field of the agent changes. -/
theorem getAIResponse_success (w : World) (u : String) (r : HttpResponse) (data : Json)
    (c : String) (hkey : truthy w.agent.apiKey = true) (hok : r.ok = true)
    (hbody : r.body = some data) (hc : choiceContent data = .ok (some (.str c))) :
    (getAIResponse w u (.response r)).2 = .ok (trim c) ∧
    (trim c = c → (getAIResponse w u (.response r)).2 = .ok c) ∧
    (getAIResponse w u (.response r)).1 =
      { w with
        agent := { w.agent with
          conversationHistory :=
            sliceLast 10 (w.agent.conversationHistory ++
              [⟨.user, u⟩, ⟨.assistant, trim c⟩]) }
        calls := w.calls ++ [.fetch (chatRequest w.agent u)] } ∧
    (w.agent.conversationHistory.length + 2 ≤ 10 →
      (getAIResponse w u (.response r)).1.agent.conversationHistory =
        w.agent.conversationHistory ++ [⟨.user, u⟩, ⟨.assistant, trim c⟩]) := by
  have hval : getAIResponse w u (.response r) =
      ({ w with
        agent := { w.agent with
          conversationHistory :=
            sliceLast 10 (w.agent.conversationHistory ++
              [⟨.user, u⟩, ⟨.assistant, trim c⟩]) }
        calls := w.calls ++ [.fetch (chatRequest w.agent u)] }, .ok (trim c)) := by
    unfold getAIResponse getAIResponseSettle
    simp only [hkey, hok, hbody, replyContent_of_content data c hc, Bool.not_true,
      Bool.false_eq_true, if_false, World.call, updateHistory_eq]
  rw [hval]
  refine ⟨rfl, fun ht => by rw [ht], rfl, fun hlen => ?_⟩
  simp only
  rw [sliceLast_of_length_le]
  simp only [List.length_append, List.length_cons, List.length_nil]
  omega

/-- Witness for C3 (as amended): the content `Hello` on the sample agent. -/
theorem getAIResponse_success_witness :
    (getAIResponse sampleWorldWithKey "hi" (okResponse "Hello")).2 = .ok "Hello" ∧
    (getAIResponse sampleWorldWithKey "hi" (okResponse "Hello")).1.agent.conversationHistory =
      [⟨.user, "hi"⟩, ⟨.assistant, "Hello"⟩] :=
  ⟨(getAIResponse_success sampleWorldWithKey "hi" ⟨true, 200, some (chatBody "Hello")⟩
      (chatBody "Hello") "Hello" rfl rfl rfl rfl).2.1 rfl,
   (getAIResponse_success sampleWorldWithKey "hi" ⟨true, 200, some (chatBody "Hello")⟩
      (chatBody "Hello") "Hello" rfl rfl rfl rfl).2.2.2 (by decide)⟩

/-- Counterexample to C3 as stated: for the content `" Hello "` (a string with a
space at each end) the call returns `"Hello"`, which is not the content. -/
theorem getAIResponse_not_exact_content :
    truthy sampleWorldWithKey.agent.apiKey = true ∧
    choiceContent (chatBody " Hello ") = .ok (some (.str " Hello ")) ∧
    (getAIResponse sampleWorldWithKey "hi" (okResponse " Hello ")).2 = .ok "Hello" ∧
    (getAIResponse sampleWorldWithKey "hi" (okResponse " Hello ")).2 ≠ .ok " Hello " :=
  ⟨rfl, rfl, rfl, fun h => absurd (Except.ok.inj h) (by decide)⟩

/-- C4. With a credential configured, when the endpoint's answer is a failure
(rejected request, non-success status, or malformed body), `processVoiceInput`
shows the fixed apology as the reply, hands no other text to the speech engine, and
leaves the conversation history exactly as it was. -/
theorem processVoiceInput_endpoint_failure (w : World) (transcript : String)
    (o : FetchOutcome) (run : SpeechRun) (hkey : truthy w.agent.apiKey = true)
    (hfail : endpointFails o = true) :
    (processVoiceInput w transcript o run).dom.aiResponse = errorResponse ∧
    (processVoiceInput w transcript o run).agent.conversationHistory =
      w.agent.conversationHistory ∧
    (processVoiceInput w transcript o run).calls =
      w.calls ++ [.fetch (chatRequest w.agent transcript)] ++ speakCalls w errorResponse := by
  obtain ⟨e, he⟩ := getAIResponseSettle_of_fails
    ((processVoiceInputEnter w transcript).call
      (.fetch (chatRequest (processVoiceInputEnter w transcript).agent transcript)))
    transcript o hfail
  have hkey1 : truthy (processVoiceInputEnter w transcript).agent.apiKey = true := hkey
  have hget : getAIResponse (processVoiceInputEnter w transcript) transcript o =
      ((processVoiceInputEnter w transcript).call
        (.fetch (chatRequest (processVoiceInputEnter w transcript).agent transcript)),
        .error e) := by
    unfold getAIResponse
    rw [hkey1, he]
    rfl
  unfold processVoiceInput
  simp only [hkey1, hget, if_true]
  cases hs : w.agent.synthesis <;> cases hp : w.agent.isSpeaking <;>
    cases hst : run.started <;> cases hf : run.failed <;>
    simp [awaitSpeak, speakEnqueues, speak, speakCalls, runUtterance, utteranceOnstart,
      utteranceOnend, utteranceOnerror, processVoiceInputFinally, processVoiceInputEnter,
      setAiResponse, updateUI, showStatus, World.call, chatRequest, hs, hp, hst, hf]

/-- Witness for C4: a status-500 answer and a success answer with an empty
`choices` array, on the sample agent with a credential. -/
theorem processVoiceInput_endpoint_failure_witness :
    (processVoiceInput sampleWorldWithKey "hello" serverError ⟨true, false⟩).dom.aiResponse =
      errorResponse ∧
    (processVoiceInput sampleWorldWithKey "hello" serverError
      ⟨true, false⟩).agent.conversationHistory = [] ∧
    (processVoiceInput sampleWorldWithKey "hello" emptyChoices
      ⟨true, false⟩).agent.conversationHistory = [] :=
  ⟨(processVoiceInput_endpoint_failure sampleWorldWithKey "hello" serverError ⟨true, false⟩
      rfl rfl).1,
   (processVoiceInput_endpoint_failure sampleWorldWithKey "hello" serverError ⟨true, false⟩
      rfl rfl).2.1,
   (processVoiceInput_endpoint_failure sampleWorldWithKey "hello" emptyChoices ⟨true, false⟩
      rfl rfl).2.1⟩

/-! ## The canned replies: lemmas -/

theorem includesChars_iff (s kw : List Char) : includesChars s kw = true ↔ kw <:+: s := by
  induction s with
  | nil => simp [includesChars]
  | cons c rest ih =>
    simp only [includesChars, Bool.or_eq_true, ih, List.infix_cons_iff,
      List.isPrefixOf_iff_prefix]

/-- The search of `includes` finds exactly the substrings. -/
theorem includes_eq (s kw : String) : includes s kw = decide (kw.data <:+: s.data) := by
  rw [Bool.eq_iff_iff]; simp [includes, includesChars_iff]

theorem firstMatch_nil (input : String) : firstMatch [] input = defaultReply := rfl

theorem firstMatch_cons (rule : List String × String) (rest : List (List String × String))
    (input : String) :
    firstMatch (rule :: rest) input =
      if ruleMatches input rule = true then rule.2 else firstMatch rest input := by
  unfold firstMatch
  rw [List.find?_cons]
  cases h : ruleMatches input rule <;> simp

theorem ruleMatches_three (input a b c reply : String) :
    ruleMatches input ([a, b, c], reply) =
      (includes input a || includes input b || includes input c) := by
  simp [ruleMatches, includes_eq, Bool.or_assoc]

theorem ruleMatches_four (input a b c d reply : String) :
    ruleMatches input ([a, b, c, d], reply) =
      (includes input a || includes input b || includes input c || includes input d) := by
  simp [ruleMatches, includes_eq, Bool.or_assoc]

/-- The chain of `if` statements is the first-match lookup in `ruleTable`. -/
theorem getPredefinedResponse_eq_firstMatch (t : String) :
    getPredefinedResponse t = firstMatch ruleTable (toLowerCase t) := by
  unfold getPredefinedResponse ruleTable
  simp only [firstMatch_cons, firstMatch_nil, ruleMatches_three, ruleMatches_four]

/-- First match wins: rules that do not match are skipped, the first that matches
gives the reply. -/
theorem firstMatch_of_split (input : String) (pre post : List (List String × String))
    (rule : List String × String) (hpre : ∀ r ∈ pre, ruleMatches input r = false)
    (hrule : ruleMatches input rule = true) :
    firstMatch (pre ++ rule :: post) input = rule.2 := by
  induction pre with
  | nil => rw [List.nil_append, firstMatch_cons, if_pos hrule]
  | cons r rest ih =>
    rw [List.cons_append, firstMatch_cons, hpre r (List.mem_cons_self _ _)]
    simp only [Bool.false_eq_true, if_false]
    exact ih (fun r1 h1 => hpre r1 (List.mem_cons_of_mem _ h1))

theorem firstMatch_of_no_match (input : String) (table : List (List String × String))
    (h : ∀ r ∈ table, ruleMatches input r = false) : firstMatch table input = defaultReply := by
  induction table with
  | nil => rfl
  | cons r rest ih =>
    rw [firstMatch_cons, h r (List.mem_cons_self _ _)]
    simp only [Bool.false_eq_true, if_false]
    exact ih (fun r1 h1 => h r1 (List.mem_cons_of_mem _ h1))

/-- When a rule of `pre` matches, the lookup in `pre ++ post` answers with the reply
of a rule of `pre`. -/
theorem firstMatch_append_mem (input : String) (pre post : List (List String × String))
    (h : ∃ r ∈ pre, ruleMatches input r = true) :
    ∃ r ∈ pre, firstMatch (pre ++ post) input = r.2 := by
  induction pre with
  | nil => obtain ⟨r, hr, _⟩ := h; cases hr
  | cons r rest ih =>
    rw [List.cons_append, firstMatch_cons]
    cases hm : ruleMatches input r with
    | true => exact ⟨r, List.mem_cons_self _ _, by simp⟩
    | false =>
      obtain ⟨r1, hr1, hm1⟩ := h
      rcases List.mem_cons.mp hr1 with heq | hmem
      · rw [heq, hm] at hm1; cases hm1
      · obtain ⟨r2, hr2, h2⟩ := ih ⟨r1, hmem, hm1⟩
        exact ⟨r2, List.mem_cons_of_mem _ hr2, by simpa using h2⟩

/-- Every character of a lower-case form is its own lower-case form. -/
theorem lowerChar_fixed (c : Char) : ∀ d ∈ lowerChar c, lowerChar d = [d] := by
  intro d hd
  unfold lowerChar at hd
  split at hd
  · rename_i h
    have hc : c = Char.ofNat c.toNat := (Char.ofNat_toNat c).symm
    obtain ⟨h1, h2⟩ := h
    generalize c.toNat = n at *
    subst hc
    simp only [List.mem_singleton] at hd
    subst hd
    interval_cases n <;> decide
  · split at hd
    · simp only [List.mem_singleton] at hd
      subst hd; decide
    · split at hd
      · simp only [List.mem_cons, List.mem_singleton, List.not_mem_nil, or_false] at hd
        rcases hd with hd | hd <;> subst hd <;> decide
      · simp only [List.mem_singleton] at hd
        subst hd
        unfold lowerChar
        simp [*]

theorem flatMap_lowerChar_fixed (l : List Char) (h : ∀ d ∈ l, lowerChar d = [d]) :
    l.flatMap lowerChar = l := by
  induction l with
  | nil => rfl
  | cons d rest ih =>
    rw [List.flatMap_cons, h d (List.mem_cons_self _ _),
      ih (fun x hx => h x (List.mem_cons_of_mem _ hx))]
    rfl

/-- Lower-casing twice is lower-casing once. -/
theorem toLowerCase_idem (s : String) : toLowerCase (toLowerCase s) = toLowerCase s := by
  unfold toLowerCase
  refine congrArg String.mk (flatMap_lowerChar_fixed _ ?_)
  intro d hd
  obtain ⟨c, _, hc⟩ := List.mem_flatMap.mp hd
  exact lowerChar_fixed c d hc

theorem lowerChar_of_caseVariant (c d : Char) (h : caseVariant c d = true) :
    lowerChar c = lowerChar d := by
  have key : ∀ a b : Char, isAsciiLetter a = true → isAsciiLetter b = true →
      a.toNat = b.toNat + 32 → lowerChar a = lowerChar b := by
    intro a b ha hb hab
    have hb1 : 65 ≤ b.toNat ∧ b.toNat ≤ 90 := by
      simp only [isAsciiLetter, Bool.or_eq_true, Bool.and_eq_true, decide_eq_true_eq] at ha hb
      omega
    have ha1 : lowerChar a = [a] := by
      unfold lowerChar
      rw [if_neg (by omega), if_neg (by omega), if_neg (by omega)]
    rw [ha1]
    unfold lowerChar
    rw [if_pos hb1, ← hab, Char.ofNat_toNat]
  simp only [caseVariant, Bool.or_eq_true, Bool.and_eq_true, beq_iff_eq] at h
  rcases h with h | ⟨⟨hc, hd⟩, h | h⟩
  · rw [h]
  · exact key c d hc hd h
  · exact (key d c hd hc h).symm

theorem toLowerCase_of_differOnlyInCase (s t : String) (h : differOnlyInCase s t = true) :
    toLowerCase s = toLowerCase t := by
  unfold toLowerCase
  apply congrArg String.mk
  unfold differOnlyInCase at h
  generalize s.data = xs at h ⊢
  generalize t.data = ys at h ⊢
  induction xs generalizing ys with
  | nil =>
    cases ys with
    | nil => rfl
    | cons d ds => simp [differOnlyInCaseChars] at h
  | cons c cs ih =>
    cases ys with
    | nil => simp [differOnlyInCaseChars] at h
    | cons d ds =>
      simp only [differOnlyInCaseChars, Bool.and_eq_true] at h
      rw [List.flatMap_cons, List.flatMap_cons, lowerChar_of_caseVariant c d h.1, ih ds h.2]

/-- A keyword that is its own lower-case form and occurs in a transcript occurs in
the lower-cased transcript. -/
theorem includes_toLowerCase (t kw : String) (hkw : toLowerCase kw = kw)
    (h : includes t kw = true) : includes (toLowerCase t) kw = true := by
  rw [includes_eq, decide_eq_true_eq] at h ⊢
  obtain ⟨a, b, hab⟩ := h
  have hk : kw.data.flatMap lowerChar = kw.data := congrArg String.data hkw
  refine ⟨a.flatMap lowerChar, b.flatMap lowerChar, ?_⟩
  show _ = t.data.flatMap lowerChar
  rw [← hab, List.flatMap_append, List.flatMap_append, hk]

/-! ## The canned replies: the claims -/

/-- C5 (as amended). A transcript that contains "contact" (in any letter case) and,
once lower-cased, no keyword of the three rules checked before the contact rule
(about, services, technology) gets exactly the fixed contact-info reply. -/
theorem getPredefinedResponse_contact (t : String)
    (hcontact : includes t "contact" = true ∨ includes (toLowerCase t) "contact" = true)
    (hearlier : ∀ r ∈ ruleTable.take 3, ruleMatches (toLowerCase t) r = false) :
    getPredefinedResponse t = contactReply := by
  have hlow : includes (toLowerCase t) "contact" = true := by
    rcases hcontact with h | h
    · exact includes_toLowerCase t "contact" rfl h
    · exact h
  rw [getPredefinedResponse_eq_firstMatch]
  have hsplit := firstMatch_of_split (toLowerCase t) (ruleTable.take 3) (ruleTable.drop 4)
    (["contact", "reach", "email", "call"], contactReply) hearlier
    (by rw [ruleMatches_four, hlow]; rfl)
  exact hsplit

/-- Witness for C5 (as amended): a transcript with "CONTACT" in capitals. -/
theorem getPredefinedResponse_contact_witness :
    getPredefinedResponse "How do I CONTACT you?" = contactReply :=
  getPredefinedResponse_contact "How do I CONTACT you?" (Or.inr rfl) (by decide)

/-- Counterexample to C5 as stated: a transcript that contains "contact" and the
keyword "zekitales" of the first rule gets the about reply, not the contact reply. -/
theorem contact_transcript_gets_about_reply :
    includes "How can I contact Zekitales?" "contact" = true ∧
    getPredefinedResponse "How can I contact Zekitales?" = aboutReply ∧
    getPredefinedResponse "How can I contact Zekitales?" ≠ contactReply := by
  refine ⟨rfl, rfl, ?_⟩
  rw [show getPredefinedResponse "How can I contact Zekitales?" = aboutReply from rfl]
  decide

/-- C6. `getPredefinedResponse` is the first-match lookup of the lower-cased
transcript in the rule table: the reply is that of the first rule, in table order,
one of whose keywords is a substring of the lower-cased transcript; it is the
default reply when no rule matches; and when a rule before the help rule matches
(whether or not "help" occurs too) the reply is not the help reply. -/
theorem getPredefinedResponse_first_match (t : String) :
    getPredefinedResponse t = firstMatch ruleTable (toLowerCase t) ∧
    (∀ (pre post : List (List String × String)) (rule : List String × String),
      ruleTable = pre ++ rule :: post →
      (∀ r ∈ pre, ruleMatches (toLowerCase t) r = false) →
      ruleMatches (toLowerCase t) rule = true →
      getPredefinedResponse t = rule.2) ∧
    ((∀ r ∈ ruleTable, ruleMatches (toLowerCase t) r = false) →
      getPredefinedResponse t = defaultReply) ∧
    ((∃ r ∈ ruleTable.take 15, ruleMatches (toLowerCase t) r = true) →
      (∃ r ∈ ruleTable.take 15, getPredefinedResponse t = r.2) ∧
      getPredefinedResponse t ≠ helpReply) := by
  refine ⟨getPredefinedResponse_eq_firstMatch t, ?_, ?_, ?_⟩
  · intro pre post rule htable hpre hrule
    rw [getPredefinedResponse_eq_firstMatch, htable]
    exact firstMatch_of_split _ pre post rule hpre hrule
  · intro h
    rw [getPredefinedResponse_eq_firstMatch]
    exact firstMatch_of_no_match _ _ h
  · intro h
    have hsplit : ruleTable = ruleTable.take 15 ++ ruleTable.drop 15 :=
      (List.take_append_drop 15 ruleTable).symm
    obtain ⟨r, hr, hreply⟩ := firstMatch_append_mem (toLowerCase t) (ruleTable.take 15)
      (ruleTable.drop 15) h
    rw [← hsplit, ← getPredefinedResponse_eq_firstMatch] at hreply
    refine ⟨⟨r, hr, hreply⟩, ?_⟩
    rw [hreply]
    have hne : ∀ r ∈ ruleTable.take 15, r.2 ≠ helpReply := by
      set_option maxRecDepth 100000 in decide
    exact hne r hr

/-- Witness for C6: a transcript with "help" and the keyword "service" of the
second rule gets the services reply; a transcript with no keyword gets the default. -/
theorem getPredefinedResponse_first_match_witness :
    getPredefinedResponse "Please HELP me with your services" = servicesReply ∧
    getPredefinedResponse "Please HELP me with your services" ≠ helpReply ∧
    getPredefinedResponse "xyz" = defaultReply :=
  ⟨(getPredefinedResponse_first_match "Please HELP me with your services").2.1
      (ruleTable.take 1) (ruleTable.drop 2)
      (["service", "what do you do", "offer"], servicesReply) rfl (by decide) (by decide),
   ((getPredefinedResponse_first_match "Please HELP me with your services").2.2.2
      ⟨(["service", "what do you do", "offer"], servicesReply), by decide, by decide⟩).2,
   (getPredefinedResponse_first_match "xyz").2.2.1 (by decide)⟩

theorem isPrefixOf_squash (kw : List Char) (hkw : ∀ c ∈ kw, c.toNat < 128) :
    ∀ Z : List Char, kw.isPrefixOf (squash false Z) = kw.isPrefixOf Z := by
  induction kw with
  | nil => intro Z; simp [List.isPrefixOf]
  | cons k ks ih =>
    intro Z
    have hk : k.toNat < 128 := hkw k (List.mem_cons_self _ _)
    have hks : ∀ c ∈ ks, c.toNat < 128 := fun c hc => hkw c (List.mem_cons_of_mem _ hc)
    cases Z with
    | nil => rfl
    | cons z zs =>
      by_cases hz : z.toNat < 128
      · simp only [squash, hz, if_true, List.isPrefixOf, ih hks zs]
      · have hne : (k == z) = false := by
          rw [beq_eq_false_iff_ne]
          intro h; rw [h] at hk; exact hz hk
        have hne2 : (k == Char.ofNat 128) = false := by
          rw [beq_eq_false_iff_ne]
          intro h; rw [h] at hk; revert hk; decide
        simp only [squash, hz, if_false, Bool.false_eq_true, List.isPrefixOf, hne, hne2,
          Bool.false_and]

theorem includesChars_squash (kw : List Char) (hne : kw ≠ [])
    (hkw : ∀ c ∈ kw, c.toNat < 128) :
    ∀ (X : List Char) (b : Bool), includesChars (squash b X) kw = includesChars X kw := by
  obtain ⟨k, ks, rfl⟩ := List.exists_cons_of_ne_nil hne
  have hk : k.toNat < 128 := hkw k (List.mem_cons_self _ _)
  have hks : ∀ c ∈ ks, c.toNat < 128 := fun c hc => hkw c (List.mem_cons_of_mem _ hc)
  intro X
  induction X with
  | nil => intro b; rfl
  | cons c rest ih =>
    intro b
    by_cases hc : c.toNat < 128
    · simp only [squash, hc, if_true, includesChars, ih false, List.isPrefixOf,
        isPrefixOf_squash ks hks rest]
    · have hne1 : (k == c) = false := by
        rw [beq_eq_false_iff_ne]
        intro h; rw [h] at hk; exact hc hk
      have hne2 : (k == Char.ofNat 128) = false := by
        rw [beq_eq_false_iff_ne]
        intro h; rw [h] at hk; revert hk; decide
      cases b with
      | true =>
        simp only [squash, hc, if_false, if_true, includesChars, ih true, List.isPrefixOf,
          hne1, Bool.false_and, Bool.false_or]
      | false =>
        simp only [squash, hc, if_false, Bool.false_eq_true, includesChars, ih true,
          List.isPrefixOf, hne1, hne2, Bool.false_and, Bool.false_or]

theorem squash_append_congr (X Y : List Char) (h : ∀ b, squash b X = squash b Y) :
    ∀ (a : List Char) (b : Bool), squash b (a ++ X) = squash b (a ++ Y) := by
  intro a
  induction a with
  | nil => intro b; exact h b
  | cons d ds ih =>
    intro b
    show (if d.toNat < 128 then d :: squash false (ds ++ X)
      else if b then squash true (ds ++ X) else Char.ofNat 128 :: squash true (ds ++ X)) =
      (if d.toNat < 128 then d :: squash false (ds ++ Y)
      else if b then squash true (ds ++ Y) else Char.ofNat 128 :: squash true (ds ++ Y))
    rw [ih false, ih true]

theorem squash_nonAscii_append (a : List Char) (hne : a ≠ [])
    (ha : ∀ d ∈ a, ¬ d.toNat < 128) (X : List Char) :
    ∀ b, squash b (a ++ X) = (if b then [] else [Char.ofNat 128]) ++ squash true X := by
  induction a with
  | nil => exact absurd rfl hne
  | cons d ds ih =>
    intro b
    have hd : ¬ d.toNat < 128 := ha d (List.mem_cons_self _ _)
    have htail : squash true (ds ++ X) = squash true X := by
      cases ds with
      | nil => rfl
      | cons e es =>
        have := ih (by simp) (fun x hx => ha x (List.mem_cons_of_mem _ hx)) true
        simpa using this
    cases b <;> simp [squash, hd, htail]

theorem lowerChar_of_not_hasAsciiLowerForm (c : Char) (h : hasAsciiLowerForm c = false) :
    lowerChar c = [c] := by
  simp only [hasAsciiLowerForm, Bool.or_eq_false_iff, Bool.and_eq_false_iff, beq_eq_false_iff_ne,
    decide_eq_false_iff_not, ne_eq] at h
  unfold lowerChar
  rw [if_neg (by omega), if_neg h.1.2, if_neg h.2]

theorem any_eq_of_forall (kws : List String) (f g : String → Bool)
    (h : ∀ kw ∈ kws, f kw = g kw) : kws.any f = kws.any g := by
  induction kws with
  | nil => rfl
  | cons k ks ih =>
    rw [List.any_cons, List.any_cons, h k (List.mem_cons_self _ _),
      ih (fun x hx => h x (List.mem_cons_of_mem _ hx))]

theorem squash_lower_forms :
    ∀ (cs : List Char) (imgs : List (List Char)), areLowerFormBlocks cs imgs = true →
      ∀ b, squash b (cs.flatMap lowerChar) = squash b (imgs.flatten.flatMap lowerChar) := by
  intro cs
  induction cs with
  | nil =>
    intro imgs h b
    cases imgs with
    | nil => rfl
    | cons i is => simp [areLowerFormBlocks] at h
  | cons c cs ih =>
    intro imgs h
    cases imgs with
    | nil => simp [areLowerFormBlocks] at h
    | cons img imgs =>
      simp only [areLowerFormBlocks, Bool.and_eq_true] at h
      obtain ⟨hc, hrest⟩ := h
      have ihr := ih imgs hrest
      rw [List.flatMap_cons, List.flatten_cons, List.flatMap_append]
      unfold isLowerFormOfChar at hc
      by_cases hs : hasAsciiLowerForm c = true
      · rw [if_pos hs, beq_iff_eq] at hc
        subst hc
        rw [flatMap_lowerChar_fixed _ (lowerChar_fixed c)]
        exact squash_append_congr _ _ ihr _
      · rw [if_neg hs] at hc
        have hs2 : hasAsciiLowerForm c = false := by simpa using hs
        have hlc := lowerChar_of_not_hasAsciiLowerForm c hs2
        by_cases ha : c.toNat < 128
        · rw [if_pos ha, beq_iff_eq] at hc
          subst hc
          rw [List.flatMap_cons, List.flatMap_nil, List.append_nil]
          exact squash_append_congr _ _ ihr _
        · rw [if_neg ha] at hc
          simp only [Bool.and_eq_true, Bool.not_eq_true', List.all_eq_true,
            decide_eq_true_eq] at hc
          obtain ⟨hne, hall⟩ := hc
          have himg : img.flatMap lowerChar = img :=
            flatMap_lowerChar_fixed img
              (fun d hd => lowerChar_of_not_hasAsciiLowerForm d (hall d hd).2)
          have hne2 : img ≠ [] := by
            intro h0; rw [h0] at hne; simp at hne
          intro b
          rw [himg, hlc, squash_nonAscii_append [c] (by simp) (by simpa using ha),
            squash_nonAscii_append img hne2 (fun d hd => by have := (hall d hd).1; omega),
            ihr true]

/-- An ASCII keyword occurs in the model's lower-case form of a transcript exactly
when it occurs in the model's lower-case form of any admissible lower-case form of
the transcript. -/
theorem includes_lower_form (s l : String) (h : IsLowerCaseForm s l) (kw : String)
    (hkw : isAsciiKeyword kw = true) :
    includes (toLowerCase s) kw = includes (toLowerCase l) kw := by
  obtain ⟨imgs, himgs, hl⟩ := h
  simp only [isAsciiKeyword, Bool.and_eq_true, Bool.not_eq_true', List.all_eq_true,
    decide_eq_true_eq] at hkw
  have hne : kw.data ≠ [] := by
    intro h0; rw [h0] at hkw; simp at hkw
  unfold includes toLowerCase
  show includesChars (s.data.flatMap lowerChar) kw.data =
    includesChars (l.data.flatMap lowerChar) kw.data
  rw [← includesChars_squash kw.data hne hkw.2 (s.data.flatMap lowerChar) false,
    ← includesChars_squash kw.data hne hkw.2 (l.data.flatMap lowerChar) false, hl,
    squash_lower_forms s.data imgs himgs false]

theorem firstMatch_congr (x y : String) (table : List (List String × String))
    (h : ∀ rule ∈ table, ruleMatches x rule = ruleMatches y rule) :
    firstMatch table x = firstMatch table y := by
  induction table with
  | nil => rfl
  | cons r rest ih =>
    rw [firstMatch_cons, firstMatch_cons, h r (List.mem_cons_self _ _),
      ih (fun r1 h1 => h r1 (List.mem_cons_of_mem _ h1))]

theorem ruleTable_keywords_ascii :
    ∀ rule ∈ ruleTable, ∀ kw ∈ rule.1, isAsciiKeyword kw = true := by
  decide

theorem getPredefinedResponse_of_lower_form (s l : String) (h : IsLowerCaseForm s l) :
    getPredefinedResponse s = getPredefinedResponse l := by
  rw [getPredefinedResponse_eq_firstMatch, getPredefinedResponse_eq_firstMatch]
  apply firstMatch_congr
  intro rule hrule
  unfold ruleMatches
  apply any_eq_of_forall
  intro kw hkw
  rw [← includes_eq, ← includes_eq]
  exact includes_lower_form s l h kw (ruleTable_keywords_ascii rule hrule kw hkw)

/-- The model's lower-case form is an admissible lower-case form, so every
transcript has one. -/
theorem isLowerCaseForm_toLowerCase (s : String) : IsLowerCaseForm s (toLowerCase s) := by
  refine ⟨s.data.map lowerChar, ?_, ?_⟩
  · generalize s.data = cs
    induction cs with
    | nil => rfl
    | cons c cs ih =>
      simp only [List.map_cons, areLowerFormBlocks, Bool.and_eq_true, ih, and_true]
      unfold isLowerFormOfChar
      by_cases hs : hasAsciiLowerForm c = true
      · rw [if_pos hs]; simp
      · have hs2 : hasAsciiLowerForm c = false := by simpa using hs
        rw [if_neg hs, lowerChar_of_not_hasAsciiLowerForm c hs2]
        by_cases ha : c.toNat < 128
        · rw [if_pos ha]; simp
        · rw [if_neg ha]
          simp only [List.isEmpty_cons, Bool.not_false, List.all_cons, List.all_nil,
            Bool.and_true, Bool.true_and, hs2, Bool.and_eq_true, decide_eq_true_eq]
          omega
  · show s.data.flatMap lowerChar = _
    generalize s.data = cs
    induction cs with
    | nil => rfl
    | cons c cs ih => rw [List.flatMap_cons, List.map_cons, List.flatten_cons, ih]

/-- C7 (as amended). `getPredefinedResponse` reads its argument only through its
lower-case form: a transcript and any string that `toLowerCase` may return for it get
the same reply, so two transcripts with the same lower-case form get the same reply,
and so do two transcripts that differ only in the case of ASCII letters.  (Every
transcript has such a lower-case form.) -/
theorem getPredefinedResponse_lower_form (s : String) :
    (∀ l : String, IsLowerCaseForm s l →
      getPredefinedResponse s = getPredefinedResponse l) ∧
    (∀ t l : String, IsLowerCaseForm s l → IsLowerCaseForm t l →
      getPredefinedResponse s = getPredefinedResponse t) ∧
    (∀ t : String, differOnlyInCase s t = true →
      getPredefinedResponse s = getPredefinedResponse t) ∧
    (IsLowerCaseForm s (toLowerCase s) ∧
      getPredefinedResponse s = getPredefinedResponse (toLowerCase s)) := by
  refine ⟨fun l h => getPredefinedResponse_of_lower_form s l h, fun t l hs ht => ?_,
    fun t h => ?_, isLowerCaseForm_toLowerCase s, ?_⟩
  · rw [getPredefinedResponse_of_lower_form s l hs, getPredefinedResponse_of_lower_form t l ht]
  · rw [getPredefinedResponse_eq_firstMatch, getPredefinedResponse_eq_firstMatch,
      toLowerCase_of_differOnlyInCase s t h]
  · exact getPredefinedResponse_of_lower_form s _ (isLowerCaseForm_toLowerCase s)

/-- Witness for C7 (as amended): `été hello` is a lower-case form of `ÉTÉ Hello` and
of `été HELLO`, which also differ only in the case of ASCII letters from
`ÉTÉ hellO` and `été hello`. -/
theorem getPredefinedResponse_lower_form_witness :
    (IsLowerCaseForm "ÉTÉ Hello" "été hello" ∧
      getPredefinedResponse "ÉTÉ Hello" = getPredefinedResponse "été hello") ∧
    (IsLowerCaseForm "été HELLO" "été hello" ∧
      getPredefinedResponse "ÉTÉ Hello" = getPredefinedResponse "été HELLO") ∧
    (differOnlyInCase "ÉTÉ Hello" "ÉTÉ hellO" = true ∧
      getPredefinedResponse "ÉTÉ Hello" = getPredefinedResponse "ÉTÉ hellO") :=
  ⟨⟨⟨"été hello".data.map (fun c => [c]), by decide, rfl⟩,
    (getPredefinedResponse_lower_form "ÉTÉ Hello").1 "été hello"
      ⟨"été hello".data.map (fun c => [c]), by decide, rfl⟩⟩,
   ⟨⟨"été hello".data.map (fun c => [c]), by decide, rfl⟩,
    (getPredefinedResponse_lower_form "ÉTÉ Hello").2.1 "été HELLO" "été hello"
      ⟨"été hello".data.map (fun c => [c]), by decide, rfl⟩
      ⟨"été hello".data.map (fun c => [c]), by decide, rfl⟩⟩,
   ⟨by decide, (getPredefinedResponse_lower_form "ÉTÉ Hello").2.2.1 "ÉTÉ hellO" (by decide)⟩⟩

/-- Counterexample to C7 as stated: `HI` and `hı` differ only in the case of their
letters (`ı`, U+0131, is the lower-case letter whose upper-case form is `I`, so
both have the upper-case form `HI`), yet `HI` gets the greeting and `hı`, whose
lower-case form is itself and contains no keyword, gets the default reply. -/
theorem dotless_i_changes_reply :
    differOnlyInLetterCase "HI" "hı" = true ∧
    "hı".data.map upperChar = "HI".data ∧
    toLowerCase "HI" = "hi" ∧ toLowerCase "hı" = "hı" ∧
    getPredefinedResponse "HI" = greetingReply ∧
    getPredefinedResponse "hı" = defaultReply ∧
    getPredefinedResponse "HI" ≠ getPredefinedResponse "hı" := by
  refine ⟨by decide, by decide, by decide, by decide, rfl, rfl, ?_⟩
  rw [show getPredefinedResponse "HI" = greetingReply from rfl,
    show getPredefinedResponse "hı" = defaultReply from rfl]
  decide

/-! ## The session state: lemmas -/

theorem uiClasses_updateUI (w : World) (st : UIState) :
    uiClasses (updateUI w st) = classesFor st := rfl

theorem uiClasses_showStatus (w : World) (m : String) :
    uiClasses (showStatus w m) = uiClasses w := rfl

theorem uiClasses_call (w : World) (c : Call) : uiClasses (w.call c) = uiClasses w := rfl

theorem uiClasses_showError (w : World) (m : String) :
    uiClasses (showError w m) = uiClasses w := rfl

theorem uiClasses_setAiResponse (w : World) (m : String) :
    uiClasses (setAiResponse w m) = uiClasses w := rfl

theorem uiClasses_updateTranscript (w : World) (m : String) :
    uiClasses (updateTranscript w m) = uiClasses w := rfl

theorem uiClasses_speak (w : World) (text : String) :
    uiClasses (speak w text) = uiClasses w := by
  unfold speak
  split <;> rfl

theorem uiClasses_processVoiceInputStart (w : World) (t : String) :
    uiClasses (processVoiceInputStart w t) = classesFor .processing := by
  unfold processVoiceInputStart
  simp only
  split
  · rfl
  · rw [uiClasses_speak]; rfl

theorem uiClasses_processVoiceInputSettle (w : World) (t : String) (o : FetchOutcome) :
    uiClasses (processVoiceInputSettle w t o) = uiClasses w := by
  unfold processVoiceInputSettle
  rcases getAIResponseSettle_spec w t o with ⟨e, h⟩ | ⟨r, h⟩ <;> rw [h] <;>
    simp only [uiClasses_speak] <;> rfl

/-- Each step either keeps the two class attributes or writes those of one state. -/
theorem uiClasses_step (w : World) (e : Event) :
    uiClasses (step w e) = uiClasses w ∨ ∃ st, uiClasses (step w e) = classesFor st := by
  cases e with
  | recognitionStart => exact Or.inr ⟨.listening, rfl⟩
  | recognitionResult ev =>
    simp only [step, recognitionOnresult]
    split
    · exact Or.inr ⟨.processing, uiClasses_processVoiceInputStart _ _⟩
    · exact Or.inl rfl
  | recognitionError kind => exact Or.inr ⟨.idle, rfl⟩
  | recognitionEnd =>
    simp only [step, recognitionOnend]
    split
    · exact Or.inr ⟨.idle, rfl⟩
    · exact Or.inl rfl
  | startListening b =>
    simp only [step, startListening]
    split
    · exact Or.inl rfl
    · split <;> exact Or.inl rfl
  | stopListening =>
    simp only [step, stopListening]
    split
    · exact Or.inr ⟨.idle, rfl⟩
    · exact Or.inl rfl
  | processVoiceInput t => exact Or.inr ⟨.processing, uiClasses_processVoiceInputStart _ _⟩
  | fetchSettled t o => exact Or.inl (uiClasses_processVoiceInputSettle _ _ _)
  | processingDone => exact Or.inr ⟨.idle, rfl⟩
  | speak text => exact Or.inl (uiClasses_speak _ _)
  | utteranceStart => exact Or.inr ⟨.speaking, rfl⟩
  | utteranceEnd => exact Or.inr ⟨.idle, rfl⟩
  | utteranceError => exact Or.inr ⟨.idle, rfl⟩
  | stopSpeaking =>
    simp only [step, stopSpeaking]
    split
    · exact Or.inr ⟨.idle, rfl⟩
    · exact Or.inl rfl

/-- In every reachable world the class attributes are those of one state. -/
theorem uiClasses_of_reachable (w : World) (h : Reachable w) :
    ∃ st, uiClasses w = classesFor st := by
  induction h with
  | init w hinit =>
    refine ⟨.idle, ?_⟩
    unfold uiClasses
    rw [hinit.2.2.2.2.1]
    rfl
  | step w e _ ih =>
    rcases uiClasses_step w e with h | h
    · rw [h]; exact ih
    · exact h

theorem reachable_runEvents (events : List Event) :
    ∀ w : World, Reachable w → Reachable (runEvents w events) := by
  induction events with
  | nil => intro w h; exact h
  | cons e rest ih => intro w h; exact ih (step w e) (Reachable.step w e h)

theorem isInitial_sampleWorld : IsInitial sampleWorld := ⟨rfl, rfl, rfl, rfl, rfl, rfl⟩

/-! ## The session state: the claims -/

/-- C8 (as amended). In every world reachable from an initial one by the widget's
events and operations, the page shows at most one of the states listening,
processing and speaking: the floating button carries the class of at most one of
them, and the status indicator carries the same. -/
theorem shown_state_exclusive (w : World) (h : Reachable w) :
    (shownStates w).length ≤ 1 ∧ (indicatedStates w).length ≤ 1 ∧
    shownStates w = indicatedStates w := by
  obtain ⟨st, hst⟩ := uiClasses_of_reachable w h
  have hf : w.dom.floatingBtnClass = (classesFor st).1 := congrArg Prod.fst hst
  have hi : w.dom.indicatorClass = (classesFor st).2 := congrArg Prod.snd hst
  unfold shownStates indicatedStates
  rw [hf, hi]
  cases st <;> decide

/-- Witness for C8 (as amended): the world of an ordinary exchange while the reply
is playing, where the page shows the single state speaking. -/
theorem shown_state_exclusive_witness :
    Reachable (runEvents sampleWorld replyingEvents) ∧
    shownStates (runEvents sampleWorld replyingEvents) = [.speaking] ∧
    ((shownStates (runEvents sampleWorld replyingEvents)).length ≤ 1 ∧
      (indicatedStates (runEvents sampleWorld replyingEvents)).length ≤ 1 ∧
      shownStates (runEvents sampleWorld replyingEvents) =
        indicatedStates (runEvents sampleWorld replyingEvents)) :=
  ⟨reachable_runEvents replyingEvents sampleWorld (Reachable.init _ isInitial_sampleWorld),
   by decide,
   shown_state_exclusive _
     (reachable_runEvents replyingEvents sampleWorld (Reachable.init _ isInitial_sampleWorld))⟩

/-- Counterexample to C8 as stated: in an ordinary exchange, right after the final
transcript `isListening` and `isProcessing` are both true, and while the reply is
playing `isProcessing` and `isSpeaking` are both true; so some reachable world has
more than one flag set. -/
theorem flags_overlap :
    ((runEvents sampleWorld heardEvents).agent.isListening = true ∧
      (runEvents sampleWorld heardEvents).agent.isProcessing = true) ∧
    ((runEvents sampleWorld replyingEvents).agent.isProcessing = true ∧
      (runEvents sampleWorld replyingEvents).agent.isSpeaking = true) ∧
    ¬ (∀ w : World, Reachable w → activeFlags w ≤ 1) := by
  refine ⟨⟨rfl, rfl⟩, ⟨rfl, rfl⟩, fun hall => ?_⟩
  have h := hall (runEvents sampleWorld heardEvents)
    (reachable_runEvents heardEvents sampleWorld (Reachable.init _ isInitial_sampleWorld))
  revert h
  decide

/-- C9 at the failing input. For a result event whose only final segment is one
space, the final transcript is empty after trimming, yet the handler calls
`processVoiceInput` (with the empty string) and `isProcessing` becomes true. -/
theorem blank_final_transcript_is_processed :
    (collectTranscripts blankFinalEvent).1 = " " ∧
    trim (collectTranscripts blankFinalEvent).1 = "" ∧
    onresultDispatch blankFinalEvent = some "" ∧
    sampleWorld.agent.isProcessing = false ∧
    (recognitionOnresult sampleWorld blankFinalEvent).agent.isProcessing = true ∧
    (recognitionOnresult sampleWorld blankFinalEvent).dom.aiResponse = defaultReply := by
  refine ⟨rfl, rfl, rfl, rfl, rfl, rfl⟩

/-- C10. `stopListening` while `isListening` is false and `startListening` while
`isListening` is true leave the whole world as it was: every field of the agent,
the page, and the list of calls (so neither `start` nor `stop` is called). -/
theorem listening_guards_noop (w : World) :
    (w.agent.isListening = false → stopListening w = w) ∧
    (w.agent.isListening = true → ∀ startThrows, startListening w startThrows = w) := by
  constructor
  · intro h
    unfold stopListening
    rw [h, Bool.and_false]
    rfl
  · intro h b
    unfold startListening
    rw [h, Bool.or_true]
    rfl

/-- Witness for C10: `stopListening` on the idle sample agent, `startListening` on
the listening one. -/
theorem listening_guards_noop_witness :
    (sampleWorld.agent.isListening = false ∧ stopListening sampleWorld = sampleWorld) ∧
    (listeningWorld.agent.isListening = true ∧
      startListening listeningWorld false = listeningWorld) :=
  ⟨⟨rfl, (listening_guards_noop sampleWorld).1 rfl⟩,
   ⟨rfl, (listening_guards_noop listeningWorld).2 rfl false⟩⟩

/-! ## Speech playback and cancellation: the claims -/

/-- C11. `speak(text)` invoked while `isSpeaking` is true drops the request: the
world is returned as it was (no field changes, the synthesis queue is neither
cancelled nor given a new utterance), and the call completes at once, so awaiting
it changes nothing either. -/
theorem speak_while_speaking_dropped (w : World) (text : String)
    (h : w.agent.isSpeaking = true) :
    speak w text = w ∧ speakEnqueues w = false ∧ speakCalls w text = [] ∧
    ∀ run, awaitSpeak w text run = w := by
  have hs : speak w text = w := by
    unfold speak
    rw [h, Bool.or_true]
    rfl
  have he : speakEnqueues w = false := by
    unfold speakEnqueues
    rw [h]
    simp
  refine ⟨hs, he, ?_, fun run => ?_⟩
  · unfold speakCalls
    rw [he]
    rfl
  · unfold awaitSpeak
    rw [he, hs]
    rfl

/-- Witness for C11: a second `speak` while the reply of an exchange is playing. -/
theorem speak_while_speaking_dropped_witness :
    replyingWorld.agent.isSpeaking = true ∧ speak replyingWorld "again" = replyingWorld ∧
    awaitSpeak replyingWorld "again" ⟨true, false⟩ = replyingWorld :=
  ⟨rfl, (speak_while_speaking_dropped replyingWorld "again" rfl).1,
    (speak_while_speaking_dropped replyingWorld "again" rfl).2.2.2 ⟨true, false⟩⟩

/-- C12 (as amended). An explicit user cancel clears the flag of the adapter it
stops and shows the idle state at once: `stopListening` while listening (recognizer
present) calls `recognition.stop`, sets `isListening` false and shows idle;
`stopSpeaking` (synthesis present), in any state, cancels the synthesis queue, sets
`isSpeaking` false and shows idle.  Each leaves the other two flags as they were. -/
theorem cancel_clears_own_flag (w : World) :
    (w.agent.recognition = true → w.agent.isListening = true →
      (stopListening w).agent.isListening = false ∧
      uiClasses (stopListening w) = classesFor .idle ∧
      (stopListening w).agent.isProcessing = w.agent.isProcessing ∧
      (stopListening w).agent.isSpeaking = w.agent.isSpeaking ∧
      (stopListening w).calls = w.calls ++ [.recognitionStop]) ∧
    (w.agent.synthesis = true →
      (stopSpeaking w).agent.isSpeaking = false ∧
      uiClasses (stopSpeaking w) = classesFor .idle ∧
      (stopSpeaking w).agent.isListening = w.agent.isListening ∧
      (stopSpeaking w).agent.isProcessing = w.agent.isProcessing ∧
      (stopSpeaking w).calls = w.calls ++ [.synthesisCancel]) := by
  constructor
  · intro hr hl
    unfold stopListening
    rw [hr, hl]
    exact ⟨rfl, rfl, rfl, rfl, rfl⟩
  · intro hs
    unfold stopSpeaking
    rw [hs]
    exact ⟨rfl, rfl, rfl, rfl, rfl⟩

/-- Witness for C12 (as amended): `stopListening` on the listening sample agent
(after which no flag is set) and `stopSpeaking` while a reply is playing. -/
theorem cancel_clears_own_flag_witness :
    (listeningWorld.agent.isListening = true ∧
      (stopListening listeningWorld).agent.isListening = false ∧
      activeFlags (stopListening listeningWorld) = 0) ∧
    (replyingWorld.agent.isSpeaking = true ∧
      (stopSpeaking replyingWorld).agent.isSpeaking = false ∧
      (stopSpeaking replyingWorld).agent.isProcessing = replyingWorld.agent.isProcessing) :=
  ⟨⟨rfl, ((cancel_clears_own_flag listeningWorld).1 rfl rfl).1, rfl⟩,
   ⟨rfl, ((cancel_clears_own_flag replyingWorld).2 rfl).1,
    ((cancel_clears_own_flag replyingWorld).2 rfl).2.2.2.1⟩⟩

/-- Counterexample to C12 as stated: `stopSpeaking` while the reply of an ordinary
exchange is playing leaves `isProcessing` true, and so does `stopListening` right
after the final transcript; so a cancel from a reachable world need not clear all
three flags. -/
theorem cancel_leaves_processing :
    (replyingWorld.agent.isSpeaking = true ∧
      (stopSpeaking replyingWorld).agent.isProcessing = true) ∧
    ((runEvents sampleWorld heardEvents).agent.isListening = true ∧
      (stopListening (runEvents sampleWorld heardEvents)).agent.isProcessing = true) ∧
    ¬ (∀ w : World, Reachable w → activeFlags (stopSpeaking w) = 0) := by
  refine ⟨⟨rfl, rfl⟩, ⟨rfl, rfl⟩, fun hall => ?_⟩
  have h := hall replyingWorld
    (reachable_runEvents replyingEvents sampleWorld (Reachable.init _ isInitial_sampleWorld))
  revert h
  decide

/-- C13. Every path through `processVoiceInput` (whatever the credential, however
the `fetch` settles, whether the utterance starts, ends or fails, or is dropped)
ends with `isProcessing` false; after a recognition error `isListening` is false;
after a synthesis error `isSpeaking` is false; and each of the three leaves the page
in the idle state. -/
theorem error_paths_clear_flags (w : World) :
    (∀ (t : String) (o : FetchOutcome) (run : SpeechRun),
      (processVoiceInput w t o run).agent.isProcessing = false ∧
      uiClasses (processVoiceInput w t o run) = classesFor .idle) ∧
    (∀ kind : String,
      (recognitionOnerror w kind).agent.isListening = false ∧
      uiClasses (recognitionOnerror w kind) = classesFor .idle) ∧
    ((utteranceOnerror w).agent.isSpeaking = false ∧
      uiClasses (utteranceOnerror w) = classesFor .idle) :=
  ⟨fun _ _ _ => ⟨rfl, rfl⟩, fun _ => ⟨rfl, rfl⟩, ⟨rfl, rfl⟩⟩


/-! ## Voice selection: the claims -/

theorem find_split (p : Voice → Bool) (voices : List Voice) (h : ∃ v ∈ voices, p v = true) :
    ∃ pre v post, voices = pre ++ v :: post ∧ (∀ x ∈ pre, p x = false) ∧ p v = true ∧
      voices.find? p = some v := by
  cases hf : voices.find? p with
  | none =>
    obtain ⟨v, hv, hp⟩ := h
    exact absurd hp (List.find?_eq_none.mp hf v hv)
  | some v =>
    obtain ⟨hp, pre, post, hsplit, hpre⟩ := List.find?_eq_some.mp hf
    refine ⟨pre, v, post, hsplit, fun x hx => ?_, hp, rfl⟩
    have := hpre x hx
    simpa using this

theorem find_none (p : Voice → Bool) (voices : List Voice) (h : ∀ v ∈ voices, p v = false) :
    voices.find? p = none :=
  List.find?_eq_none.mpr (fun v hv => by rw [h v hv]; simp)

/-- C14 (as amended). For every non-empty list of available voices, the voice
`loadVoices` selects is the first voice whose language tag starts with `en` and
whose name contains `Google`; if there is none, the first voice whose language tag
starts with `en`; if there is none, the first voice of the list.  The selection does
not depend on the agent, in particular not on the configured language. -/
theorem loadVoices_selection (a : Agent) (voices : List Voice) (hne : voices ≠ []) :
    (loadVoices a voices).voices = voices ∧
    ((∃ v ∈ voices, isEnglishGoogle v = true) →
      ∃ pre v post, voices = pre ++ v :: post ∧ (∀ x ∈ pre, isEnglishGoogle x = false) ∧
        isEnglishGoogle v = true ∧ (loadVoices a voices).currentVoice = some v) ∧
    ((∀ v ∈ voices, isEnglishGoogle v = false) → (∃ v ∈ voices, isEnglish v = true) →
      ∃ pre v post, voices = pre ++ v :: post ∧ (∀ x ∈ pre, isEnglish x = false) ∧
        isEnglish v = true ∧ (loadVoices a voices).currentVoice = some v) ∧
    ((∀ v ∈ voices, isEnglish v = false) →
      (loadVoices a voices).currentVoice = voices.head?) ∧
    (∀ b : Agent, (loadVoices b voices).currentVoice = (loadVoices a voices).currentVoice) := by
  have hpos : voices.length > 0 := List.length_pos.mpr hne
  have hcur : ∀ b : Agent, (loadVoices b voices).currentVoice = selectVoice voices := by
    intro b
    unfold loadVoices
    simp only [hpos, if_true]
  refine ⟨?_, ?_, ?_, ?_, ?_⟩
  · unfold loadVoices
    simp only [hpos, if_true]
  · intro h
    obtain ⟨pre, v, post, hs, hpre, hv, hfind⟩ := find_split isEnglishGoogle voices h
    refine ⟨pre, v, post, hs, hpre, hv, ?_⟩
    rw [hcur]
    unfold selectVoice
    rw [hfind]
  · intro hno h
    obtain ⟨pre, v, post, hs, hpre, hv, hfind⟩ := find_split isEnglish voices h
    refine ⟨pre, v, post, hs, hpre, hv, ?_⟩
    rw [hcur]
    unfold selectVoice
    rw [find_none isEnglishGoogle voices hno, hfind]
  · intro hno
    have hno2 : ∀ v ∈ voices, isEnglishGoogle v = false := by
      intro v hv
      unfold isEnglishGoogle
      have := hno v hv
      unfold isEnglish at this
      rw [this]
      rfl
    rw [hcur]
    unfold selectVoice
    rw [find_none isEnglishGoogle voices hno2, find_none isEnglish voices hno]
  · intro b
    rw [hcur, hcur]

/-- Witness for C14 (as amended): a French and an English voice. -/
theorem loadVoices_selection_witness :
    (loadVoices frenchAgent frenchVoices).voices = frenchVoices ∧
    ∃ pre v post, frenchVoices = pre ++ v :: post ∧ (∀ x ∈ pre, isEnglish x = false) ∧
      isEnglish v = true ∧ (loadVoices frenchAgent frenchVoices).currentVoice = some v :=
  ⟨(loadVoices_selection frenchAgent frenchVoices (by decide)).1,
   (loadVoices_selection frenchAgent frenchVoices (by decide)).2.2.1 (by decide)
     ⟨⟨"Microsoft David", "en-US"⟩, by decide, by decide⟩⟩

/-- Counterexample to C14 as stated: with the language configured as `fr-FR` and a
Google voice for `fr-FR` first in the list, the selected voice is the English one. -/
theorem loadVoices_ignores_configured_language :
    frenchAgent.config.language = "fr-FR" ∧
    (loadVoices frenchAgent frenchVoices).currentVoice = some ⟨"Microsoft David", "en-US"⟩ ∧
    preferredVoice frenchAgent.config.language frenchVoices =
      some ⟨"Google français", "fr-FR"⟩ ∧
    (loadVoices frenchAgent frenchVoices).currentVoice ≠
      preferredVoice frenchAgent.config.language frenchVoices := by
  decide


/-! ## Construction: the claims -/

theorem strTruthy_eq_false_iff (s : String) : strTruthy s = false ↔ s = "" := by
  obtain ⟨data⟩ := s
  cases data with
  | nil => exact ⟨fun _ => rfl, fun _ => rfl⟩
  | cons c cs =>
    constructor
    · intro h; simp [strTruthy] at h
    · intro h; exact absurd (congrArg String.data h) (by simp)

theorem orString_spec (x : Option String) (d : String) :
    (∀ s, x = some s → s ≠ "" → orString x d = s) ∧
    ((x = none ∨ x = some "") → orString x d = d) := by
  constructor
  · intro s hx hs
    subst hx
    unfold orString
    have : strTruthy s = true := by
      cases h : strTruthy s with
      | true => rfl
      | false => exact absurd ((strTruthy_eq_false_iff s).mp h) hs
    simp [this]
  · intro h
    rcases h with h | h <;> subst h <;> rfl

theorem orNumber_spec (x : Option ℚ) (d : ℚ) :
    (∀ n, x = some n → n ≠ 0 → orNumber x d = n) ∧
    ((x = none ∨ x = some 0) → orNumber x d = d) := by
  constructor
  · intro n hx hn
    subst hx
    simp [orNumber, hn]
  · intro h
    rcases h with h | h <;> subst h <;> simp [orNumber]

theorem orBool_spec (x : Option Bool) (d : Bool) :
    (x = some true → orBool x d = true) ∧
    ((x = none ∨ x = some false) → orBool x d = d) := by
  constructor
  · intro h; subst h; rfl
  · intro h
    rcases h with h | h <;> subst h <;> rfl

/-- C15 (as amended). For every options object, each configuration field equals
the supplied option when that option is present and truthy (a non-empty string, a
number other than zero, `true`), and equals its default (`en-US`, 1, 1, 1, false,
30000, 3000, `gpt-3.5-turbo`, the default prompt) when the option is absent or
falsy (the empty string, zero, `false`). -/
theorem constructor_config (o : Options) (synthesis : Bool) :
    ((∀ s, o.language = some s → s ≠ "" → (constructAgent o synthesis).config.language = s) ∧
      ((o.language = none ∨ o.language = some "") →
        (constructAgent o synthesis).config.language = "en-US")) ∧
    ((∀ n, o.voiceRate = some n → n ≠ 0 → (constructAgent o synthesis).config.voiceRate = n) ∧
      ((o.voiceRate = none ∨ o.voiceRate = some 0) →
        (constructAgent o synthesis).config.voiceRate = 1)) ∧
    ((∀ n, o.voicePitch = some n → n ≠ 0 →
        (constructAgent o synthesis).config.voicePitch = n) ∧
      ((o.voicePitch = none ∨ o.voicePitch = some 0) →
        (constructAgent o synthesis).config.voicePitch = 1)) ∧
    ((∀ n, o.voiceVolume = some n → n ≠ 0 →
        (constructAgent o synthesis).config.voiceVolume = n) ∧
      ((o.voiceVolume = none ∨ o.voiceVolume = some 0) →
        (constructAgent o synthesis).config.voiceVolume = 1)) ∧
    ((o.autoListen = some true → (constructAgent o synthesis).config.autoListen = true) ∧
      ((o.autoListen = none ∨ o.autoListen = some false) →
        (constructAgent o synthesis).config.autoListen = false)) ∧
    ((∀ n, o.maxSpeechLength = some n → n ≠ 0 →
        (constructAgent o synthesis).config.maxSpeechLength = n) ∧
      ((o.maxSpeechLength = none ∨ o.maxSpeechLength = some 0) →
        (constructAgent o synthesis).config.maxSpeechLength = 30000)) ∧
    ((∀ n, o.silenceTimeout = some n → n ≠ 0 →
        (constructAgent o synthesis).config.silenceTimeout = n) ∧
      ((o.silenceTimeout = none ∨ o.silenceTimeout = some 0) →
        (constructAgent o synthesis).config.silenceTimeout = 3000)) ∧
    ((∀ s, o.aiModel = some s → s ≠ "" → (constructAgent o synthesis).config.aiModel = s) ∧
      ((o.aiModel = none ∨ o.aiModel = some "") →
        (constructAgent o synthesis).config.aiModel = "gpt-3.5-turbo")) ∧
    ((∀ s, o.systemPrompt = some s → s ≠ "" →
        (constructAgent o synthesis).config.systemPrompt = s) ∧
      ((o.systemPrompt = none ∨ o.systemPrompt = some "") →
        (constructAgent o synthesis).config.systemPrompt = defaultSystemPrompt)) :=
  ⟨orString_spec _ _, orNumber_spec _ _, orNumber_spec _ _, orNumber_spec _ _,
    orBool_spec _ _, orNumber_spec _ _, orNumber_spec _ _, orString_spec _ _,
    orString_spec _ _⟩

/-- Witness for C15 (as amended): options with truthy values, and a volume of zero. -/
theorem constructor_config_witness :
    (constructAgent frenchOptions true).config.language = "fr-FR" ∧
    (constructAgent frenchOptions true).config.voiceRate = 3 / 2 ∧
    (constructAgent frenchOptions true).config.autoListen = true ∧
    (constructAgent frenchOptions true).config.voiceVolume = 1 ∧
    (constructAgent mutedOptions true).config.voiceVolume = 1 :=
  ⟨(constructor_config frenchOptions true).1.1 "fr-FR" rfl (by decide),
   (constructor_config frenchOptions true).2.1.1 (3 / 2) rfl (by norm_num),
   (constructor_config frenchOptions true).2.2.2.2.1.1 rfl,
   (constructor_config frenchOptions true).2.2.2.1.2 (Or.inl rfl),
   (constructor_config mutedOptions true).2.2.2.1.2 (Or.inr rfl)⟩

/-- Counterexample to C15 as stated: the supplied volume `0` and the supplied
language `""` are replaced by the defaults `1` and `en-US`. -/
theorem falsy_option_replaced :
    (mutedOptions.voiceVolume = some 0 ∧
      (constructAgent mutedOptions true).config.voiceVolume = 1 ∧
      (constructAgent mutedOptions true).config.voiceVolume ≠ 0) ∧
    (mutedOptions.language = some "" ∧
      (constructAgent mutedOptions true).config.language = "en-US" ∧
      (constructAgent mutedOptions true).config.language ≠ "") := by
  decide


/-! ## The recognizer's result: the claims -/

theorem collect_range (rs : List SpeechResult) :
    ∀ (n s : Nat) (acc : String × String), s + n = rs.length →
      (List.range' s n).foldl
        (fun acc i =>
          match rs[i]? with
          | some r =>
            if r.isFinal then (acc.1 ++ r.transcript, acc.2) else (acc.1, acc.2 ++ r.transcript)
          | none => acc)
        acc =
      (acc.1 ++ joinTranscripts ((rs.drop s).filter (fun r => r.isFinal)),
       acc.2 ++ joinTranscripts ((rs.drop s).filter (fun r => !r.isFinal))) := by
  intro n
  induction n with
  | zero =>
    intro s acc h
    have hs : rs.drop s = [] := List.drop_eq_nil_of_le (by omega)
    simp [hs, joinTranscripts, String.append_empty]
  | succ n ih =>
    intro s acc h
    have hlt : s < rs.length := by omega
    rw [List.range'_succ, List.foldl_cons, List.getElem?_eq_getElem hlt,
      List.drop_eq_getElem_cons hlt]
    simp only
    rw [ih (s + 1) _ (by omega)]
    cases hf : rs[s].isFinal with
    | true =>
      simp only [List.filter_cons, hf, joinTranscripts, String.append_assoc, if_true,
        Bool.not_true, Bool.false_eq_true, if_false]
    | false =>
      simp only [List.filter_cons, hf, joinTranscripts, String.append_assoc, if_true,
        Bool.not_false, Bool.false_eq_true, if_false]

theorem collectTranscripts_eq (e : RecognitionEvent) :
    collectTranscripts e =
      (joinTranscripts ((e.results.drop e.resultIndex).filter (fun r => r.isFinal)),
       joinTranscripts ((e.results.drop e.resultIndex).filter (fun r => !r.isFinal))) := by
  unfold collectTranscripts
  by_cases h : e.resultIndex ≤ e.results.length
  · refine (collect_range e.results _ e.resultIndex ("", "") (by omega)).trans ?_
    simp only [String.empty_append]
  · have h0 : e.results.length - e.resultIndex = 0 := by omega
    have hs : e.results.drop e.resultIndex = [] := List.drop_eq_nil_of_le (by omega)
    rw [h0, hs]
    rfl

/-- C16. The final transcript of a result event is the concatenation, in index
order, of the transcripts of the results at indices `resultIndex` and above that are
marked final; results before `resultIndex` contribute nothing; and when every
result from `resultIndex` on is interim the final transcript is empty,
`processVoiceInput` is not called, and the handler only rewrites the transcript
display: agent, calls and shown state are unchanged. -/
theorem final_transcript_spec (e : RecognitionEvent) :
    (collectTranscripts e).1 =
      joinTranscripts ((e.results.drop e.resultIndex).filter (fun r => r.isFinal)) ∧
    (∀ e2 : RecognitionEvent,
      e2.results.drop e2.resultIndex = e.results.drop e.resultIndex →
      (collectTranscripts e2).1 = (collectTranscripts e).1) ∧
    ((∀ r ∈ e.results.drop e.resultIndex, r.isFinal = false) →
      (collectTranscripts e).1 = "" ∧ onresultDispatch e = none ∧
      ∀ w : World,
        recognitionOnresult w e = updateTranscript w (collectTranscripts e).2 ∧
        (recognitionOnresult w e).agent = w.agent ∧
        (recognitionOnresult w e).calls = w.calls ∧
        uiClasses (recognitionOnresult w e) = uiClasses w) := by
  refine ⟨by rw [collectTranscripts_eq], fun e2 h => by
    rw [collectTranscripts_eq, collectTranscripts_eq, h], fun hall => ?_⟩
  have hfil : (e.results.drop e.resultIndex).filter (fun r => r.isFinal) = [] := by
    rw [List.filter_eq_nil_iff]
    intro r hr
    rw [hall r hr]
    simp
  have h1 : (collectTranscripts e).1 = "" := by
    rw [collectTranscripts_eq]
    simp only
    rw [hfil]
    rfl
  have hd : onresultDispatch e = none := by
    unfold onresultDispatch
    simp only
    rw [h1]
    rfl
  refine ⟨h1, hd, fun w => ?_⟩
  have hw : recognitionOnresult w e = updateTranscript w (collectTranscripts e).2 := by
    unfold recognitionOnresult
    simp only
    rw [hd, h1, String.empty_append]
  rw [hw]
  exact ⟨rfl, rfl, rfl, rfl⟩

/-- Witness for C16: an event with old results before `resultIndex` and mixed
results after it, and an event with interim results only. -/
theorem final_transcript_spec_witness :
    (collectTranscripts mixedEvent).1 = "what do offer" ∧
    ((collectTranscripts interimEvent).1 = "" ∧
      (recognitionOnresult sampleWorld interimEvent).agent = sampleWorld.agent) :=
  ⟨(final_transcript_spec mixedEvent).1,
   ((final_transcript_spec interimEvent).2.2 (by decide)).1,
   (((final_transcript_spec interimEvent).2.2 (by decide)).2.2 sampleWorld).2.1⟩

/-- C17. With no credential configured, `processVoiceInput` leaves the conversation
history as it was: the reply shown is the canned one and the only calls made are
those of speaking it (no request is sent). -/
theorem processVoiceInput_canned_keeps_history (w : World) (t : String) (o : FetchOutcome)
    (run : SpeechRun) (hkey : truthy w.agent.apiKey = false) :
    (processVoiceInput w t o run).agent.conversationHistory = w.agent.conversationHistory ∧
    (processVoiceInput w t o run).dom.aiResponse = getPredefinedResponse t ∧
    (processVoiceInput w t o run).calls = w.calls ++ speakCalls w (getPredefinedResponse t) ∧
    (processVoiceInputStart w t).agent.conversationHistory = w.agent.conversationHistory := by
  have hkey1 : truthy (processVoiceInputEnter w t).agent.apiKey = false := hkey
  unfold processVoiceInput processVoiceInputStart
  simp only [hkey1, Bool.false_eq_true, if_false]
  cases hs : w.agent.synthesis <;> cases hp : w.agent.isSpeaking <;>
    cases hst : run.started <;> cases hf : run.failed <;>
    simp [awaitSpeak, speakEnqueues, speak, speakCalls, runUtterance, utteranceOnstart,
      utteranceOnend, utteranceOnerror, processVoiceInputFinally, processVoiceInputEnter,
      setAiResponse, updateUI, showStatus, World.call, hs, hp, hst, hf]

/-- Witness for C17: the transcript `hello` on the sample agent without credential. -/
theorem processVoiceInput_canned_keeps_history_witness :
    truthy sampleWorld.agent.apiKey = false ∧
    (processVoiceInput sampleWorld "hello" .rejected ⟨true, false⟩).agent.conversationHistory =
      [] ∧
    (processVoiceInput sampleWorld "hello" .rejected ⟨true, false⟩).dom.aiResponse =
      greetingReply :=
  ⟨rfl, (processVoiceInput_canned_keeps_history sampleWorld "hello" .rejected ⟨true, false⟩ rfl).1,
    (processVoiceInput_canned_keeps_history sampleWorld "hello" .rejected ⟨true, false⟩ rfl).2.1⟩


/-! ## The rule table has no dead rule -/

set_option maxRecDepth 100000 in
theorem sampleTranscripts_firstMatched :
    ∀ i, i < 17 → firstMatchedAt (sampleTranscripts.getD i "") i = true := by
  decide

theorem rule_reachable_of_split (pre post : List (List String × String))
    (rule : List String × String) (h : ruleTable = pre ++ rule :: post) :
    ∃ t, (∀ r ∈ pre, ruleMatches (toLowerCase t) r = false) ∧
      ruleMatches (toLowerCase t) rule = true ∧ getPredefinedResponse t = rule.2 := by
  have hlen : pre.length < 17 := by
    have := congrArg List.length h
    simp only [List.length_append, List.length_cons] at this
    have h17 : ruleTable.length = 17 := rfl
    omega
  have hm := sampleTranscripts_firstMatched pre.length hlen
  have htake : ruleTable.take pre.length = pre := by rw [h]; exact List.take_left' rfl
  have hget : ruleTable[pre.length]? = some rule := by
    rw [h, List.getElem?_append_right (Nat.le_refl _), Nat.sub_self]
    exact List.getElem?_cons_zero
  unfold firstMatchedAt at hm
  rw [htake, hget] at hm
  simp only [Bool.and_eq_true, List.all_eq_true, Bool.not_eq_true'] at hm
  refine ⟨sampleTranscripts.getD pre.length "", hm.1, hm.2, ?_⟩
  rw [getPredefinedResponse_eq_firstMatch, h]
  exact firstMatch_of_split _ pre post rule hm.1 hm.2

/-- C18. No rule of the canned-reply table is dead: the table has 17 rules, for
each of them some transcript gets its reply, and it gets it through that rule (no
earlier rule matches the transcript); some transcript matches no rule and gets the
default reply; and the 18 replies are pairwise different. -/
theorem no_rule_is_dead :
    ruleTable.length = 17 ∧
    (∀ rule ∈ ruleTable, ∃ t, getPredefinedResponse t = rule.2) ∧
    (∃ t, getPredefinedResponse t = defaultReply ∧
      ∀ r ∈ ruleTable, ruleMatches (toLowerCase t) r = false) ∧
    (∀ (pre post : List (List String × String)) (rule : List String × String),
      ruleTable = pre ++ rule :: post →
      ∃ t, (∀ r ∈ pre, ruleMatches (toLowerCase t) r = false) ∧
        ruleMatches (toLowerCase t) rule = true ∧ getPredefinedResponse t = rule.2) ∧
    ruleTable.map Prod.snd = sampleTranscripts.map getPredefinedResponse ∧
    (defaultReply :: ruleTable.map Prod.snd).Nodup := by
  refine ⟨rfl, ?_, ⟨"xyz", rfl, by decide⟩, rule_reachable_of_split, rfl, ?_⟩
  · intro rule hr
    obtain ⟨pre, post, hsplit⟩ := List.append_of_mem hr
    obtain ⟨t, _, _, ht⟩ := rule_reachable_of_split pre post rule hsplit
    exact ⟨t, ht⟩
  · set_option maxRecDepth 100000 in decide

/-- Witness for C18: the help rule, the sixteenth of the table. -/
theorem no_rule_is_dead_witness :
    (∃ t, getPredefinedResponse t = helpReply) ∧
    ∃ t, (∀ r ∈ ruleTable.take 15, ruleMatches (toLowerCase t) r = false) ∧
      ruleMatches (toLowerCase t) (["help", "support", "assist"], helpReply) = true ∧
      getPredefinedResponse t = helpReply :=
  ⟨no_rule_is_dead.2.1 (["help", "support", "assist"], helpReply) (by decide),
   no_rule_is_dead.2.2.2.1 (ruleTable.take 15) (ruleTable.drop 16)
     (["help", "support", "assist"], helpReply) rfl⟩

end VoiceAgent
